import Mathlib

/-!
Verification development for the molecular-mechanics data layer
(`scripts/molecular_mechanics/mmlib/molecule.py`).

The file shallowly embeds the Python classes `Atom`, `Bond`, `Angle`,
`Torsion`, `Outofplane` and `Molecule`, together with the topology,
energy and gradient pipelines they orchestrate.  Machine floats are
represented by rationals; the collaborating modules (`topology`,
`energy`, `gradient`, `param`, `fileio`) are not part of the source
tree, so their operations are modelled from the design document, as
noted on each such definition.
-/

namespace MM

/-- A 3-component Cartesian vector, as used for coordinates, velocities
and per-atom gradients. -/
abbrev Vec3 : Type := ℚ × ℚ × ℚ

/-- The zero vector. -/
def v0 : Vec3 := (0, 0, 0)

/-- Componentwise addition of 3-vectors. -/
def vadd (a b : Vec3) : Vec3 := (a.1 + b.1, a.2.1 + b.2.1, a.2.2 + b.2.2)

/-- Componentwise difference of 3-vectors. -/
def vsub (a b : Vec3) : Vec3 := (a.1 - b.1, a.2.1 - b.2.1, a.2.2 - b.2.2)

/-- Squared Euclidean norm of a 3-vector. -/
def sqNorm (a : Vec3) : ℚ := a.1 ^ 2 + a.2.1 ^ 2 + a.2.2 ^ 2

/-- Squared Euclidean distance between two points. -/
def sqDist (a b : Vec3) : ℚ := sqNorm (vsub a b)

/-- Write component `i` (0, 1 or 2) of a 3-vector. -/
def vecSet (v : Vec3) (i : Nat) (x : ℚ) : Vec3 :=
  match i with
  | 0 => (x, v.2.1, v.2.2)
  | 1 => (v.1, x, v.2.2)
  | 2 => (v.1, v.2.1, x)
  | _ => v

/-- `Atom`: per-atom state, mirroring the fields set by `Atom.__init__`
(molecule.py lines 9-29). -/
structure Atom where
  attype : String
  element : String
  coords : Vec3
  charge : ℚ
  ro : ℚ
  eps : ℚ
  sreps : ℚ
  mass : ℚ
  covrad : ℚ
  vels : Vec3
  accs : Vec3
  pcoords : Vec3
  pvels : Vec3
  paccs : Vec3
  e_nonbonded : ℚ
  e_bonded : ℚ
  e_bound : ℚ
  g_nonbonded : Vec3
  g_bonded : Vec3

instance : Inhabited Atom :=
  ⟨⟨"", "", v0, 0, 0, 0, 0, 0, 0, v0, v0, v0, v0, v0, 0, 0, 0, v0, v0⟩⟩

/-- The element label computed by `Atom.__init__`:
`at_type[0].capitalize()`, extended by `at_type[-1]` when that last
character is lower-case (molecule.py lines 11-12).  The empty-string
guard covers an input on which the Python code would raise. -/
def pyElement (at_type : String) : String :=
  if at_type.isEmpty then "" else
    let hd := String.singleton at_type.front.toUpper
    if at_type.back.isLower then hd ++ String.singleton at_type.back else hd

/-- `Atom.__init__` (molecule.py lines 9-29).  `sqrtF` stands for
`math.sqrt` (kept abstract: square roots of rationals are irrational
and no claim depends on the value of `sreps`); `get_cov_rad` stands for
the external Parameter Service call `param.get_cov_rad`. -/
def Atom.init (sqrtF : ℚ → ℚ) (get_cov_rad : String → ℚ) (at_type : String)
    (at_coords : Vec3) (at_charge at_ro at_eps at_mass : ℚ) : Atom :=
  { attype := at_type
    element := pyElement at_type
    coords := at_coords
    charge := at_charge
    ro := at_ro
    eps := at_eps
    sreps := sqrtF at_eps
    mass := at_mass
    covrad := get_cov_rad (pyElement at_type)
    vels := v0
    accs := v0
    pcoords := at_coords
    pvels := v0
    paccs := v0
    e_nonbonded := 0
    e_bonded := 0
    e_bound := 0
    g_nonbonded := v0
    g_bonded := v0 }

/-- `Atom.set_coords` (molecule.py lines 34-35). -/
def Atom.set_coords (a : Atom) (coords : Vec3) : Atom := { a with coords := coords }

/-- The local names bound in the body of `Atom.set_coord`: the receiver
`self` and the two formal parameters `index` and `coord`
(molecule.py line 37). -/
def set_coord_locals : List String := ["self", "index", "coord"]

/-- The module-level names bound in `molecule.py`: the imports of line 1
and line 2 and the five classes defined in the file.  No global named
`coords` exists. -/
def molecule_globals : List String :=
  ["sys", "math", "numpy", "fileio", "param", "geomcalc", "topology",
   "energy", "gradient", "Atom", "Bond", "Angle", "Torsion", "Outofplane",
   "Molecule"]

/-- `Atom.set_coord` (molecule.py lines 37-38).  Its body is
`self.coords[index] = coords`; Python first resolves the right-hand
name `coords` against the enclosing scopes, and only on success would
the element assignment run.  The name `coords` is bound neither locally
nor at module level, so the resolution step is modelled by the scope
check below; the success branch is dead code (see
`set_coord_always_name_error`). -/
def Atom.set_coord (a : Atom) (index : Nat) (coord : ℚ) : Except String Atom :=
  if "coords" ∈ set_coord_locals ++ molecule_globals then
    Except.ok { a with coords := vecSet a.coords index coord }
  else
    Except.error ("NameError: name coords is not defined")

/-- `Bond` record (molecule.py lines 65-74). -/
structure Bond where
  at1 : Nat
  at2 : Nat
  r_ij : ℚ
  r_eq : ℚ
  k_b : ℚ
  e : ℚ
  g : ℚ

/-- `Bond.__init__` (molecule.py lines 67-74). -/
def Bond.init (at1 at2 : Nat) (r_ij r_eq k_b : ℚ) : Bond :=
  ⟨at1, at2, r_ij, r_eq, k_b, 0, 0⟩

/-- `Angle` record (molecule.py lines 92-102). -/
structure Angle where
  at1 : Nat
  at2 : Nat
  at3 : Nat
  a_ijk : ℚ
  a_eq : ℚ
  k_a : ℚ
  e : ℚ
  g : ℚ

/-- `Angle.__init__` (molecule.py lines 94-102). -/
def Angle.init (at1 at2 at3 : Nat) (a_ijk a_eq k_a : ℚ) : Angle :=
  ⟨at1, at2, at3, a_ijk, a_eq, k_a, 0, 0⟩

/-- `Torsion` record (molecule.py lines 123-136).  The constructor binds
the periodicity parameter `nfold` to the attribute `self.n`; the field
`nfold` below models the distinct attribute of that name that
`set_nfold` creates dynamically (`none` while the attribute is absent). -/
structure Torsion where
  at1 : Nat
  at2 : Nat
  at3 : Nat
  at4 : Nat
  t_ijkl : ℚ
  v_n : ℚ
  gam : ℚ
  n : ℚ
  paths : ℚ
  e : ℚ
  g : ℚ
  nfold : Option ℚ

/-- `Torsion.__init__` (molecule.py lines 125-136): no attribute named
`nfold` is created by the constructor. -/
def Torsion.init (at1 at2 at3 at4 : Nat) (t_ijkl v_n gamma nfold paths : ℚ) : Torsion :=
  ⟨at1, at2, at3, at4, t_ijkl, v_n, gamma, nfold, paths, 0, 0, none⟩

/-- `Torsion.set_nfold` (molecule.py lines 159-160): the body is
`self.nfold = nfold`, which writes the attribute `nfold`, not the
attribute `n` that the constructor populated. -/
def Torsion.set_nfold (t : Torsion) (nfold : ℚ) : Torsion :=
  { t with nfold := some nfold }

/-- `Outofplane` record (molecule.py lines 166-176). -/
structure Outofplane where
  at1 : Nat
  at2 : Nat
  at3 : Nat
  at4 : Nat
  o_ijkl : ℚ
  v_n : ℚ
  e : ℚ
  g : ℚ

/-- `Outofplane.__init__` (molecule.py lines 168-176). -/
def Outofplane.init (at1 at2 at3 at4 : Nat) (o_ijkl v_n : ℚ) : Outofplane :=
  ⟨at1, at2, at3, at4, o_ijkl, v_n, 0, 0⟩

/-- `Molecule` aggregate state: the fields initialized by
`Molecule.__init__` (molecule.py lines 199-254).  Scalar floats are
rationals; `vol`, initialized to `float(inf)`, lives in `WithTop ℚ`;
`grad_type` models the attribute that `get_gradient` creates
dynamically (absent until the first call). -/
structure MolState where
  infile : String
  filetype : String
  name : String
  atoms : List Atom
  bonds : List Bond
  angles : List Angle
  torsions : List Torsion
  outofplanes : List Outofplane
  nonints : List (Nat × Nat)
  dielectric : ℚ
  n_atoms : Nat
  n_bonds : Nat
  n_angles : Nat
  n_torsions : Nat
  n_outofplanes : Nat
  mass : ℚ
  k_box : ℚ
  bound : ℚ
  boundtype : String
  origin : Vec3
  vol : WithTop ℚ
  temp : ℚ
  press : ℚ
  virial : ℚ
  e_bonds : ℚ
  e_angles : ℚ
  e_torsions : ℚ
  e_outofplanes : ℚ
  e_bonded : ℚ
  e_vdw : ℚ
  e_elst : ℚ
  e_nonbonded : ℚ
  e_bound : ℚ
  e_potential : ℚ
  e_kinetic : ℚ
  e_total : ℚ
  g_bonds : List Vec3
  g_angles : List Vec3
  g_torsions : List Vec3
  g_outofplanes : List Vec3
  g_bonded : List Vec3
  g_vdw : List Vec3
  g_elst : List Vec3
  g_nonbonded : List Vec3
  g_total : List Vec3
  g_bound : Option (List Vec3)
  grad_type : Option String

/-- The molecule state with every collection empty and every scalar at
the default that `Molecule.__init__` assigns before dispatching on the
file type (molecule.py lines 203-254, with empty name strings). -/
def emptyMol : MolState :=
  { infile := ""
    filetype := ""
    name := ""
    atoms := []
    bonds := []
    angles := []
    torsions := []
    outofplanes := []
    nonints := []
    dielectric := 1
    n_atoms := 0
    n_bonds := 0
    n_angles := 0
    n_torsions := 0
    n_outofplanes := 0
    mass := 0
    k_box := 0
    bound := 0
    boundtype := "none"
    origin := v0
    vol := ⊤
    temp := 0
    press := 0
    virial := 0
    e_bonds := 0
    e_angles := 0
    e_torsions := 0
    e_outofplanes := 0
    e_bonded := 0
    e_vdw := 0
    e_elst := 0
    e_nonbonded := 0
    e_bound := 0
    e_potential := 0
    e_kinetic := 0
    e_total := 0
    g_bonds := []
    g_angles := []
    g_torsions := []
    g_outofplanes := []
    g_bonded := []
    g_vdw := []
    g_elst := []
    g_nonbonded := []
    g_total := []
    g_bound := none
    grad_type := none }

/-- A fatal configuration error: the term category and the offending
atom-type key, as the design document requires missing-parameter
failures to be reported. -/
structure ConfigError where
  cat : String
  attypes : List String

/-- Modelled from the spec: the external Parameter Service contract of
section 6 (`param.py` is not part of the source tree).  Each lookup
returns `none` exactly when the table has no entry for the key. -/
structure Params where
  bond : String → String → Option (ℚ × ℚ)
  angle : String → String → String → Option (ℚ × ℚ)
  torsion : String → String → String → String → Option (List (ℚ × ℚ × ℚ))
  oop : String → String → String → String → Option ℚ

/-- The atom stored at index `i` (default atom out of range). -/
def atomAt (ats : List Atom) (i : Nat) : Atom := ats.getD i default

/-- Coordinates of atom `i`. -/
def coordOf (ats : List Atom) (i : Nat) : Vec3 := (atomAt ats i).coords

/-- Atom-type string of atom `i`. -/
def typeOf (ats : List Atom) (i : Nat) : String := (atomAt ats i).attype

/-- Covalent radius of atom `i`. -/
def covradOf (ats : List Atom) (i : Nat) : ℚ := (atomAt ats i).covrad

/-- Modelled from the spec: the fixed tolerance scale of the
covalent-radius-sum proximity test (`topology.py` is not part of the
source tree); the customary value 1.2 is used. -/
def bond_thresh : ℚ := 6 / 5

/-- Modelled from the spec: the bond-graph proximity test, an edge
between atoms `i` and `j` exactly when
`distance(i,j) <= bond_thresh * (covrad_i + covrad_j)`.  Since a
Euclidean distance is the nonnegative square root of `sqDist`, the test
is carried out in rationals as
`0 <= threshold and sqDist <= threshold^2`, which is equivalent
(see `closeb_iff_sqrt_le`). -/
def closeb (ats : List Atom) (i j : Nat) : Bool :=
  let t := bond_thresh * (covradOf ats i + covradOf ats j)
  decide (0 ≤ t) && decide (sqDist (coordOf ats i) (coordOf ats j) ≤ t ^ 2)

/-- All index pairs `(i, j)` with `i < j < n`. -/
def pairsUpTo (n : Nat) : List (Nat × Nat) :=
  (List.range n).flatMap fun i =>
    ((List.range n).filter fun j => decide (i < j)).map fun j => (i, j)

/-- The bond-graph edges: proximity-passing pairs `(i, j)`, `i < j`. -/
def closePairs (ats : List Atom) (n : Nat) : List (Nat × Nat) :=
  (pairsUpTo n).filter fun p => closeb ats p.1 p.2

/-- The bonded neighbors of atom `b` (the adjacency structure of the
bond graph). -/
def nbrs (ats : List Atom) (n b : Nat) : List Nat :=
  (List.range n).filter fun a => decide (a ≠ b) && closeb ats a b

/-- `List.mapM` specialised to `Except`, written as a plain recursion so
that its success and failure cases can be reasoned about directly. -/
def mapME (f : α → Except ConfigError β) : List α → Except ConfigError (List β)
  | [] => Except.ok []
  | x :: xs =>
    match f x with
    | Except.error e => Except.error e
    | Except.ok y =>
      match mapME f xs with
      | Except.error e => Except.error e
      | Except.ok ys => Except.ok (y :: ys)

/-- Modelled from the spec: build one `Bond` record for a graph edge,
with equilibrium distance and force constant from the Parameter Service
keyed by the two atom types; a missing entry is a fatal configuration
error naming those types.  The stored current distance is represented
by its square (an equivalent rational encoding; it is refreshed from
the coordinates by every energy evaluation). -/
def mkBondRec (P : Params) (ats : List Atom) (p : Nat × Nat) : Except ConfigError Bond :=
  match P.bond (typeOf ats p.1) (typeOf ats p.2) with
  | some rk => Except.ok (Bond.init p.1 p.2 (sqDist (coordOf ats p.1) (coordOf ats p.2)) rk.1 rk.2)
  | none => Except.error ⟨"bond", [typeOf ats p.1, typeOf ats p.2]⟩

/-- Modelled from the spec: `topology.get_bonds`, one `Bond` per bond
graph edge. -/
def getBondsM (P : Params) (m : MolState) : Except ConfigError MolState :=
  match mapME (mkBondRec P m.atoms) (closePairs m.atoms m.n_atoms) with
  | Except.error e => Except.error e
  | Except.ok bs => Except.ok { m with bonds := bs, n_bonds := bs.length }

/-- All angle triples `(a, b, c)`: `b` has distinct bonded neighbors
`a` and `c`, with `a < c` to avoid mirrored duplicates. -/
def angleTriples (ats : List Atom) (n : Nat) : List (Nat × Nat × Nat) :=
  (List.range n).flatMap fun b =>
    (nbrs ats n b).flatMap fun a =>
      ((nbrs ats n b).filter fun c => decide (a < c)).map fun c => (a, b, c)

/-- Modelled from the spec: build one `Angle` record for a triple, with
parameters from the Parameter Service keyed by the three atom types;
missing entry is fatal.  The current-angle value is refreshed by every
energy evaluation and initialized to 0 here. -/
def mkAngleRec (P : Params) (ats : List Atom) (tr : Nat × Nat × Nat) :
    Except ConfigError Angle :=
  match P.angle (typeOf ats tr.1) (typeOf ats tr.2.1) (typeOf ats tr.2.2) with
  | some ak => Except.ok (Angle.init tr.1 tr.2.1 tr.2.2 0 ak.1 ak.2)
  | none => Except.error ⟨"angle", [typeOf ats tr.1, typeOf ats tr.2.1, typeOf ats tr.2.2]⟩

/-- Modelled from the spec: `topology.get_angles`. -/
def getAnglesM (P : Params) (m : MolState) : Except ConfigError MolState :=
  match mapME (mkAngleRec P m.atoms) (angleTriples m.atoms m.n_atoms) with
  | Except.error e => Except.error e
  | Except.ok as_ => Except.ok { m with angles := as_, n_angles := as_.length }

/-- All torsion quadruples `(a, b, c, d)`: for every bond-graph edge
`(b, c)`, every neighbor `a` of `b` with `a ≠ c` and every neighbor `d`
of `c` with `d ≠ b` and `d ≠ a`. -/
def torsionQuads (ats : List Atom) (n : Nat) : List (Nat × Nat × Nat × Nat) :=
  (closePairs ats n).flatMap fun bc =>
    ((nbrs ats n bc.1).filter fun a => decide (a ≠ bc.2)).flatMap fun a =>
      (((nbrs ats n bc.2).filter fun d => decide (d ≠ bc.1) && decide (d ≠ a))).map
        fun d => (a, bc.1, bc.2, d)

/-- Path-degeneracy count of the central bond `(b, c)`:
`(degree(b) - 1) * (degree(c) - 1)`. -/
def pathsOf (ats : List Atom) (n b c : Nat) : ℚ :=
  (((nbrs ats n b).length - 1) * ((nbrs ats n c).length - 1) : ℕ)

/-- Modelled from the spec: build the `Torsion` records of one
quadruple, one per Fourier term returned by the Parameter Service;
missing entry is fatal. -/
def mkTorsRecs (P : Params) (ats : List Atom) (n : Nat) (q : Nat × Nat × Nat × Nat) :
    Except ConfigError (List Torsion) :=
  match P.torsion (typeOf ats q.1) (typeOf ats q.2.1) (typeOf ats q.2.2.1)
      (typeOf ats q.2.2.2) with
  | some terms =>
    Except.ok (terms.map fun vg =>
      Torsion.init q.1 q.2.1 q.2.2.1 q.2.2.2 0 vg.1 vg.2.1 vg.2.2
        (pathsOf ats n q.2.1 q.2.2.1))
  | none =>
    Except.error ⟨"torsion",
      [typeOf ats q.1, typeOf ats q.2.1, typeOf ats q.2.2.1, typeOf ats q.2.2.2]⟩

/-- Modelled from the spec: `topology.get_torsions`. -/
def getTorsionsM (P : Params) (m : MolState) : Except ConfigError MolState :=
  match mapME (mkTorsRecs P m.atoms m.n_atoms) (torsionQuads m.atoms m.n_atoms) with
  | Except.error e => Except.error e
  | Except.ok tss =>
    Except.ok { m with torsions := tss.flatten, n_torsions := tss.flatten.length }

/-- All out-of-plane quadruples `(a, b, c, d)`: every atom `b` with
exactly three bonded neighbors `a`, `c`, `d`. -/
def oopQuads (ats : List Atom) (n : Nat) : List (Nat × Nat × Nat × Nat) :=
  (List.range n).flatMap fun b =>
    match nbrs ats n b with
    | [x, y, z] => [(x, b, y, z)]
    | _ => []

/-- Modelled from the spec: build one `Outofplane` record for a
quadruple, amplitude from the Parameter Service; missing entry is
fatal. -/
def mkOopRec (P : Params) (ats : List Atom) (q : Nat × Nat × Nat × Nat) :
    Except ConfigError Outofplane :=
  match P.oop (typeOf ats q.1) (typeOf ats q.2.1) (typeOf ats q.2.2.1)
      (typeOf ats q.2.2.2) with
  | some vn => Except.ok (Outofplane.init q.1 q.2.1 q.2.2.1 q.2.2.2 0 vn)
  | none =>
    Except.error ⟨"outofplane",
      [typeOf ats q.1, typeOf ats q.2.1, typeOf ats q.2.2.1, typeOf ats q.2.2.2]⟩

/-- Modelled from the spec: `topology.get_outofplanes`. -/
def getOutofplanesM (P : Params) (m : MolState) : Except ConfigError MolState :=
  match mapME (mkOopRec P m.atoms) (oopQuads m.atoms m.n_atoms) with
  | Except.error e => Except.error e
  | Except.ok os => Except.ok { m with outofplanes := os, n_outofplanes := os.length }

/-- Decidable test that the pair `(i, j)` is covered by a bond (1-2),
an angle (1-3) or a torsion (1-4) relationship, in either
orientation. -/
def coveredB (bonds : List Bond) (angles : List Angle) (torsions : List Torsion)
    (i j : Nat) : Bool :=
  bonds.any (fun b => (decide (b.at1 = i) && decide (b.at2 = j)) ||
      (decide (b.at1 = j) && decide (b.at2 = i))) ||
    angles.any (fun a => (decide (a.at1 = i) && decide (a.at3 = j)) ||
      (decide (a.at1 = j) && decide (a.at3 = i))) ||
    torsions.any (fun t => (decide (t.at1 = i) && decide (t.at4 = j)) ||
      (decide (t.at1 = j) && decide (t.at4 = i)))

/-- Modelled from the spec: `topology.get_nonints`, the
nonbonded-exclusion set: every atom pair already covered by a Bond, an
Angle or a Torsion. -/
def get_nonints (m : MolState) : MolState :=
  { m with nonints :=
      (pairsUpTo m.n_atoms).filter fun p => coveredB m.bonds m.angles m.torsions p.1 p.2 }

/-- `Molecule.get_topology` (molecule.py lines 265-271): the five
builder stages in source order (the bond graph is recomputed on demand
by `closePairs`/`nbrs` rather than stored).  A missing force-field
parameter aborts the build with a `ConfigError`. -/
def get_topology (P : Params) (m : MolState) : Except ConfigError MolState :=
  match getBondsM P m with
  | Except.error e => Except.error e
  | Except.ok m1 =>
    match getAnglesM P m1 with
    | Except.error e => Except.error e
    | Except.ok m2 =>
      match getTorsionsM P m2 with
      | Except.error e => Except.error e
      | Except.ok m3 =>
        match getOutofplanesM P m3 with
        | Except.error e => Except.error e
        | Except.ok m4 => Except.ok (get_nonints m4)

/-- Modelled from the spec: the list of non-excluded atom pairs that
the nonbonded energy and gradient sums range over (`energy.py` and
`gradient.py` are not part of the source tree): all pairs `i < j` that
are not in the exclusion set `nonints`. -/
def nonbondedPairs (m : MolState) : List (Nat × Nat) :=
  (pairsUpTo m.n_atoms).filter fun p => decide (p ∉ m.nonints)

/-- The pair `(i, j)` participates in some Bond (1-2), Angle (1-3) or
Torsion (1-4) relationship of the molecule, in either orientation. -/
def coveredPair (m : MolState) (i j : Nat) : Prop :=
  (∃ b ∈ m.bonds, (b.at1 = i ∧ b.at2 = j) ∨ (b.at1 = j ∧ b.at2 = i)) ∨
    (∃ a ∈ m.angles, (a.at1 = i ∧ a.at3 = j) ∨ (a.at1 = j ∧ a.at3 = i)) ∨
    (∃ t ∈ m.torsions, (t.at1 = i ∧ t.at4 = j) ∨ (t.at1 = j ∧ t.at4 = i))

lemma coveredB_iff (bonds : List Bond) (angles : List Angle) (torsions : List Torsion)
    (i j : Nat) :
    coveredB bonds angles torsions i j = true ↔
      ((∃ b ∈ bonds, (b.at1 = i ∧ b.at2 = j) ∨ (b.at1 = j ∧ b.at2 = i)) ∨
        (∃ a ∈ angles, (a.at1 = i ∧ a.at3 = j) ∨ (a.at1 = j ∧ a.at3 = i)) ∨
        (∃ t ∈ torsions, (t.at1 = i ∧ t.at4 = j) ∨ (t.at1 = j ∧ t.at4 = i))) := by
  simp only [coveredB, Bool.or_eq_true, List.any_eq_true, Bool.and_eq_true,
    decide_eq_true_eq]
  exact or_assoc

lemma mem_pairsUpTo (n i j : Nat) : (i, j) ∈ pairsUpTo n ↔ i < j ∧ j < n := by
  simp only [pairsUpTo, List.mem_flatMap, List.mem_map, List.mem_filter,
    List.mem_range, decide_eq_true_eq]
  constructor
  · rintro ⟨a, ha, b, ⟨hb, hab⟩, heq⟩
    obtain ⟨h1, h2⟩ := Prod.mk.injEq .. ▸ heq
    exact ⟨h1 ▸ h2 ▸ hab, h2 ▸ hb⟩
  · rintro ⟨hij, hjn⟩
    exact ⟨i, lt_trans hij hjn, j, ⟨hjn, hij⟩, rfl⟩

lemma mapME_ok_mem_right {α β : Type} {f : α → Except ConfigError β} :
    ∀ {l : List α} {r : List β}, mapME f l = Except.ok r →
      ∀ y ∈ r, ∃ x ∈ l, f x = Except.ok y := by
  intro l
  induction l with
  | nil =>
    intro r h y hy
    simp only [mapME, Except.ok.injEq] at h
    subst h; cases hy
  | cons x xs ih =>
    intro r h y hy
    cases hfx : f x with
    | error e => simp [mapME, hfx] at h
    | ok z =>
      cases hm : mapME f xs with
      | error e => simp [mapME, hfx, hm] at h
      | ok ys =>
        simp only [mapME, hfx, hm, Except.ok.injEq] at h
        subst h
        rcases List.mem_cons.mp hy with hz | hys
        · exact ⟨x, List.mem_cons_self x xs, hz ▸ hfx⟩
        · obtain ⟨x', hx', h'⟩ := ih hm y hys
          exact ⟨x', List.mem_cons_of_mem x hx', h'⟩

lemma mapME_ok_mem_left {α β : Type} {f : α → Except ConfigError β} :
    ∀ {l : List α} {r : List β}, mapME f l = Except.ok r →
      ∀ x ∈ l, ∃ y ∈ r, f x = Except.ok y := by
  intro l
  induction l with
  | nil => intro r _ x hx; cases hx
  | cons x xs ih =>
    intro r h x' hx'
    cases hfx : f x with
    | error e => simp [mapME, hfx] at h
    | ok z =>
      cases hm : mapME f xs with
      | error e => simp [mapME, hfx, hm] at h
      | ok ys =>
        simp only [mapME, hfx, hm, Except.ok.injEq] at h
        subst h
        rcases List.mem_cons.mp hx' with hx1 | hx2
        · exact ⟨z, List.mem_cons_self z ys, hx1 ▸ hfx⟩
        · obtain ⟨y, hy, h'⟩ := ih hm x' hx2
          exact ⟨y, List.mem_cons_of_mem z hy, h'⟩

lemma mapME_error {α β : Type} {f : α → Except ConfigError β} :
    ∀ {l : List α} {e : ConfigError}, mapME f l = Except.error e →
      ∃ x ∈ l, f x = Except.error e := by
  intro l
  induction l with
  | nil => intro e h; simp [mapME] at h
  | cons x xs ih =>
    intro e h
    cases hfx : f x with
    | error e' =>
      simp only [mapME, hfx, Except.error.injEq] at h
      exact ⟨x, List.mem_cons_self x xs, h ▸ hfx⟩
    | ok z =>
      cases hm : mapME f xs with
      | error e' =>
        simp only [mapME, hfx, hm, Except.error.injEq] at h
        obtain ⟨x', hx', h'⟩ := ih (h ▸ hm)
        exact ⟨x', List.mem_cons_of_mem x hx', h'⟩
      | ok ys => simp [mapME, hfx, hm] at h

lemma getBondsM_ok_elim {P : Params} {m m₁ : MolState}
    (h : getBondsM P m = Except.ok m₁) :
    ∃ bs, mapME (mkBondRec P m.atoms) (closePairs m.atoms m.n_atoms) = Except.ok bs ∧
      m₁ = { m with bonds := bs, n_bonds := bs.length } := by
  unfold getBondsM at h
  cases hm : mapME (mkBondRec P m.atoms) (closePairs m.atoms m.n_atoms) with
  | error e => rw [hm] at h; cases h
  | ok bs => rw [hm] at h; exact ⟨bs, rfl, (Except.ok.inj h).symm⟩

lemma getAnglesM_ok_elim {P : Params} {m m₁ : MolState}
    (h : getAnglesM P m = Except.ok m₁) :
    ∃ as_, mapME (mkAngleRec P m.atoms) (angleTriples m.atoms m.n_atoms) = Except.ok as_ ∧
      m₁ = { m with angles := as_, n_angles := as_.length } := by
  unfold getAnglesM at h
  cases hm : mapME (mkAngleRec P m.atoms) (angleTriples m.atoms m.n_atoms) with
  | error e => rw [hm] at h; cases h
  | ok as_ => rw [hm] at h; exact ⟨as_, rfl, (Except.ok.inj h).symm⟩

lemma getTorsionsM_ok_elim {P : Params} {m m₁ : MolState}
    (h : getTorsionsM P m = Except.ok m₁) :
    ∃ tss, mapME (mkTorsRecs P m.atoms m.n_atoms) (torsionQuads m.atoms m.n_atoms)
        = Except.ok tss ∧
      m₁ = { m with torsions := tss.flatten, n_torsions := tss.flatten.length } := by
  unfold getTorsionsM at h
  cases hm : mapME (mkTorsRecs P m.atoms m.n_atoms) (torsionQuads m.atoms m.n_atoms) with
  | error e => rw [hm] at h; cases h
  | ok tss => rw [hm] at h; exact ⟨tss, rfl, (Except.ok.inj h).symm⟩

lemma getOutofplanesM_ok_elim {P : Params} {m m₁ : MolState}
    (h : getOutofplanesM P m = Except.ok m₁) :
    ∃ os, mapME (mkOopRec P m.atoms) (oopQuads m.atoms m.n_atoms) = Except.ok os ∧
      m₁ = { m with outofplanes := os, n_outofplanes := os.length } := by
  unfold getOutofplanesM at h
  cases hm : mapME (mkOopRec P m.atoms) (oopQuads m.atoms m.n_atoms) with
  | error e => rw [hm] at h; cases h
  | ok os => rw [hm] at h; exact ⟨os, rfl, (Except.ok.inj h).symm⟩

/-- Full elimination of a successful `get_topology` run: the four
`mapME` stages succeeded on the original atom set, and the result's
collections are exactly the stage outputs. -/
lemma get_topology_ok_elim {P : Params} {m m' : MolState}
    (h : get_topology P m = Except.ok m') :
    ∃ bs as_ tss os,
      mapME (mkBondRec P m.atoms) (closePairs m.atoms m.n_atoms) = Except.ok bs ∧
      mapME (mkAngleRec P m.atoms) (angleTriples m.atoms m.n_atoms) = Except.ok as_ ∧
      mapME (mkTorsRecs P m.atoms m.n_atoms) (torsionQuads m.atoms m.n_atoms)
        = Except.ok tss ∧
      mapME (mkOopRec P m.atoms) (oopQuads m.atoms m.n_atoms) = Except.ok os ∧
      m'.atoms = m.atoms ∧ m'.n_atoms = m.n_atoms ∧
      m'.bonds = bs ∧ m'.angles = as_ ∧ m'.torsions = tss.flatten ∧
      m'.outofplanes = os ∧
      m'.nonints = (pairsUpTo m.n_atoms).filter
        (fun p => coveredB bs as_ tss.flatten p.1 p.2) := by
  unfold get_topology at h
  split at h
  · cases h
  next m1 h1 =>
    split at h
    · cases h
    next m2 h2 =>
      split at h
      · cases h
      next m3 h3 =>
        split at h
        · cases h
        next m4 h4 =>
          obtain ⟨bs, hbs, hm1⟩ := getBondsM_ok_elim h1
          obtain ⟨as_, has, hm2⟩ := getAnglesM_ok_elim h2
          obtain ⟨tss, hts, hm3⟩ := getTorsionsM_ok_elim h3
          obtain ⟨os, hos, hm4⟩ := getOutofplanesM_ok_elim h4
          have hm' := Except.ok.inj h
          subst hm1; subst hm2; subst hm3; subst hm4
          refine ⟨bs, as_, tss, os, hbs, has, hts, hos, ?_, ?_, ?_, ?_, ?_, ?_, ?_⟩ <;>
            simp [← hm', get_nonints]

/-- The proximity test in rationals coincides with the design
document's Euclidean-distance test over the reals. -/
lemma closeb_iff_sqrt_le (ats : List Atom) (i j : Nat) :
    closeb ats i j = true ↔
      Real.sqrt ((sqDist (coordOf ats i) (coordOf ats j) : ℚ) : ℝ)
        ≤ ((bond_thresh * (covradOf ats i + covradOf ats j) : ℚ) : ℝ) := by
  rw [Real.sqrt_le_iff]
  simp only [closeb, Bool.and_eq_true, decide_eq_true_eq]
  constructor
  · rintro ⟨h0, hd⟩
    constructor
    · exact_mod_cast h0
    · exact_mod_cast hd
  · rintro ⟨h0, hd⟩
    constructor
    · exact_mod_cast h0
    · exact_mod_cast hd

/-- C1: After `Molecule.get_topology`, for every atom pair `(i, j)`
with `i < j`, a Bond record exists if and only if the Euclidean
distance between atoms `i` and `j` is at most
`bond_thresh * (covrad_i + covrad_j)`; every pair beyond that threshold
gets no bond. -/
theorem bond_iff_within_covrad_threshold (P : Params) (m m' : MolState)
    (hok : get_topology P m = Except.ok m') (i j : Nat)
    (hij : i < j) (hjn : j < m'.n_atoms) :
    (∃ b ∈ m'.bonds, b.at1 = i ∧ b.at2 = j) ↔
      Real.sqrt ((sqDist (coordOf m'.atoms i) (coordOf m'.atoms j) : ℚ) : ℝ)
        ≤ ((bond_thresh * (covradOf m'.atoms i + covradOf m'.atoms j) : ℚ) : ℝ) := by
  obtain ⟨bs, as_, tss, os, hbs, _, _, _, hatoms, hn, hbonds, _, _, _, _⟩ :=
    get_topology_ok_elim hok
  rw [hatoms, hbonds]
  rw [hn] at hjn
  rw [← closeb_iff_sqrt_le]
  constructor
  · rintro ⟨b, hb, hbi, hbj⟩
    obtain ⟨p, hp, hfp⟩ := mapME_ok_mem_right hbs b hb
    unfold mkBondRec at hfp
    cases hlp : P.bond (typeOf m.atoms p.1) (typeOf m.atoms p.2) with
    | none => rw [hlp] at hfp; cases hfp
    | some rk =>
      rw [hlp] at hfp
      have hb' := Except.ok.inj hfp
      have h1 : b.at1 = p.1 := by rw [← hb']; rfl
      have h2 : b.at2 = p.2 := by rw [← hb']; rfl
      have hpij : p = (i, j) := by
        rw [h1] at hbi; rw [h2] at hbj
        exact Prod.ext hbi hbj
      rw [hpij] at hp
      exact (List.mem_filter.mp hp).2
  · intro hclose
    have hp : (i, j) ∈ closePairs m.atoms m.n_atoms :=
      List.mem_filter.mpr ⟨(mem_pairsUpTo m.n_atoms i j).mpr ⟨hij, hjn⟩, hclose⟩
    obtain ⟨y, hy, hfy⟩ := mapME_ok_mem_left hbs (i, j) hp
    unfold mkBondRec at hfy
    cases hlp : P.bond (typeOf m.atoms i) (typeOf m.atoms j) with
    | none => rw [hlp] at hfy; cases hfy
    | some rk =>
      rw [hlp] at hfy
      have hy' := Except.ok.inj hfy
      refine ⟨y, hy, ?_, ?_⟩
      · rw [← hy']; rfl
      · rw [← hy']; rfl

/-- C2: After topology derivation, the exclusion set `nonints` holds
exactly the in-range pairs participating in some Bond, Angle or
Torsion, and the pair list that the nonbonded energy/gradient sums
range over holds exactly the in-range pairs that do not (disjointness
and completeness). -/
theorem nonints_exactly_covered (P : Params) (m m' : MolState)
    (hok : get_topology P m = Except.ok m') (i j : Nat) :
    ((i, j) ∈ m'.nonints ↔
      ((i, j) ∈ pairsUpTo m'.n_atoms ∧ coveredPair m' i j)) ∧
    ((i, j) ∈ nonbondedPairs m' ↔
      ((i, j) ∈ pairsUpTo m'.n_atoms ∧ ¬ coveredPair m' i j)) := by
  obtain ⟨bs, as_, tss, os, _, _, _, _, hatoms, hn, hbonds, hangles, htors, _, hnon⟩ :=
    get_topology_ok_elim hok
  have hcov : ∀ i' j' : Nat, coveredB bs as_ tss.flatten i' j' = true ↔ coveredPair m' i' j' := by
    intro i' j'
    rw [coveredB_iff]
    unfold coveredPair
    rw [hbonds, hangles, htors]
  have hmemnon : (i, j) ∈ m'.nonints ↔
      ((i, j) ∈ pairsUpTo m'.n_atoms ∧ coveredPair m' i j) := by
    rw [hnon, hn, List.mem_filter, hcov]
  refine ⟨hmemnon, ?_⟩
  unfold nonbondedPairs
  rw [List.mem_filter]
  simp only [decide_eq_true_eq]
  constructor
  · rintro ⟨hpr, hnin⟩
    refine ⟨hpr, fun hc => hnin (hmemnon.mpr ⟨hpr, hc⟩)⟩
  · rintro ⟨hpr, hnc⟩
    exact ⟨hpr, fun hin => hnc (hmemnon.mp hin).2⟩

/-- The atom-type keys of every bond the topology pass enumerates. -/
def bondKeys (ats : List Atom) (n : Nat) : List (String × String) :=
  (closePairs ats n).map fun p => (typeOf ats p.1, typeOf ats p.2)

/-- The atom-type keys of every angle the topology pass enumerates. -/
def angleKeys (ats : List Atom) (n : Nat) : List (String × String × String) :=
  (angleTriples ats n).map fun tr => (typeOf ats tr.1, typeOf ats tr.2.1, typeOf ats tr.2.2)

/-- The atom-type keys of every torsion quadruple the topology pass
enumerates. -/
def torsionKeys (ats : List Atom) (n : Nat) : List (String × String × String × String) :=
  (torsionQuads ats n).map fun q =>
    (typeOf ats q.1, typeOf ats q.2.1, typeOf ats q.2.2.1, typeOf ats q.2.2.2)

/-- The atom-type keys of every out-of-plane quadruple the topology
pass enumerates. -/
def oopKeys (ats : List Atom) (n : Nat) : List (String × String × String × String) :=
  (oopQuads ats n).map fun q =>
    (typeOf ats q.1, typeOf ats q.2.1, typeOf ats q.2.2.1, typeOf ats q.2.2.2)

/-- The configuration error `e` names the atom types of a term that the
topology pass enumerates and whose Parameter Service entry is
missing. -/
def offendingKey (P : Params) (ats : List Atom) (n : Nat) (e : ConfigError) : Prop :=
  (e.cat = "bond" ∧ ∃ k ∈ bondKeys ats n,
    P.bond k.1 k.2 = none ∧ e.attypes = [k.1, k.2]) ∨
  (e.cat = "angle" ∧ ∃ k ∈ angleKeys ats n,
    P.angle k.1 k.2.1 k.2.2 = none ∧ e.attypes = [k.1, k.2.1, k.2.2]) ∨
  (e.cat = "torsion" ∧ ∃ k ∈ torsionKeys ats n,
    P.torsion k.1 k.2.1 k.2.2.1 k.2.2.2 = none ∧
      e.attypes = [k.1, k.2.1, k.2.2.1, k.2.2.2]) ∨
  (e.cat = "outofplane" ∧ ∃ k ∈ oopKeys ats n,
    P.oop k.1 k.2.1 k.2.2.1 k.2.2.2 = none ∧
      e.attypes = [k.1, k.2.1, k.2.2.1, k.2.2.2])

lemma getBondsM_error_elim {P : Params} {m : MolState} {e : ConfigError}
    (h : getBondsM P m = Except.error e) :
    mapME (mkBondRec P m.atoms) (closePairs m.atoms m.n_atoms) = Except.error e := by
  unfold getBondsM at h
  split at h
  next e' he => exact (Except.error.inj h) ▸ he
  next bs hbs => cases h

lemma getAnglesM_error_elim {P : Params} {m : MolState} {e : ConfigError}
    (h : getAnglesM P m = Except.error e) :
    mapME (mkAngleRec P m.atoms) (angleTriples m.atoms m.n_atoms) = Except.error e := by
  unfold getAnglesM at h
  split at h
  next e' he => exact (Except.error.inj h) ▸ he
  next as_ has => cases h

lemma getTorsionsM_error_elim {P : Params} {m : MolState} {e : ConfigError}
    (h : getTorsionsM P m = Except.error e) :
    mapME (mkTorsRecs P m.atoms m.n_atoms) (torsionQuads m.atoms m.n_atoms)
      = Except.error e := by
  unfold getTorsionsM at h
  split at h
  next e' he => exact (Except.error.inj h) ▸ he
  next tss hts => cases h

lemma getOutofplanesM_error_elim {P : Params} {m : MolState} {e : ConfigError}
    (h : getOutofplanesM P m = Except.error e) :
    mapME (mkOopRec P m.atoms) (oopQuads m.atoms m.n_atoms) = Except.error e := by
  unfold getOutofplanesM at h
  split at h
  next e' he => exact (Except.error.inj h) ▸ he
  next os hos => cases h

/-- Every error that `get_topology` returns names an enumerated
atom-type combination whose Parameter Service entry is missing. -/
lemma get_topology_error_offending {P : Params} {m : MolState} {e : ConfigError}
    (h : get_topology P m = Except.error e) :
    offendingKey P m.atoms m.n_atoms e := by
  unfold get_topology at h
  split at h
  next e1 h1 =>
    obtain ⟨p, hp, hfp⟩ := mapME_error (getBondsM_error_elim ((Except.error.inj h) ▸ h1))
    unfold mkBondRec at hfp
    cases hlp : P.bond (typeOf m.atoms p.1) (typeOf m.atoms p.2) with
    | some rk => rw [hlp] at hfp; cases hfp
    | none =>
      rw [hlp] at hfp
      refine Or.inl ⟨?_, (typeOf m.atoms p.1, typeOf m.atoms p.2),
        List.mem_map_of_mem _ hp, hlp, ?_⟩
      · rw [← Except.error.inj hfp]
      · rw [← Except.error.inj hfp]
  next m1 h1 =>
    have hats1 : m1.atoms = m.atoms ∧ m1.n_atoms = m.n_atoms := by
      obtain ⟨bs, _, hm1⟩ := getBondsM_ok_elim h1
      subst hm1; exact ⟨rfl, rfl⟩
    split at h
    next e2 h2 =>
      obtain ⟨tr, htr, hftr⟩ := mapME_error (getAnglesM_error_elim ((Except.error.inj h) ▸ h2))
      rw [hats1.1] at htr hftr
      rw [hats1.2] at htr
      unfold mkAngleRec at hftr
      cases hlp : P.angle (typeOf m.atoms tr.1) (typeOf m.atoms tr.2.1) (typeOf m.atoms tr.2.2) with
      | some ak => rw [hlp] at hftr; cases hftr
      | none =>
        rw [hlp] at hftr
        refine Or.inr (Or.inl ⟨?_, (typeOf m.atoms tr.1, typeOf m.atoms tr.2.1, typeOf m.atoms tr.2.2),
          List.mem_map_of_mem _ htr, hlp, ?_⟩)
        · rw [← Except.error.inj hftr]
        · rw [← Except.error.inj hftr]
    next m2 h2 =>
      have hats2 : m2.atoms = m.atoms ∧ m2.n_atoms = m.n_atoms := by
        obtain ⟨as_, _, hm2⟩ := getAnglesM_ok_elim h2
        subst hm2; exact ⟨hats1.1, hats1.2⟩
      split at h
      next e3 h3 =>
        obtain ⟨q, hq, hfq⟩ := mapME_error (getTorsionsM_error_elim ((Except.error.inj h) ▸ h3))
        rw [hats2.1, hats2.2] at hq hfq
        unfold mkTorsRecs at hfq
        cases hlp : P.torsion (typeOf m.atoms q.1) (typeOf m.atoms q.2.1)
            (typeOf m.atoms q.2.2.1) (typeOf m.atoms q.2.2.2) with
        | some terms => rw [hlp] at hfq; cases hfq
        | none =>
          rw [hlp] at hfq
          refine Or.inr (Or.inr (Or.inl ⟨?_,
            (typeOf m.atoms q.1, typeOf m.atoms q.2.1, typeOf m.atoms q.2.2.1,
              typeOf m.atoms q.2.2.2),
            List.mem_map_of_mem _ hq, hlp, ?_⟩))
          · rw [← Except.error.inj hfq]
          · rw [← Except.error.inj hfq]
      next m3 h3 =>
        have hats3 : m3.atoms = m.atoms ∧ m3.n_atoms = m.n_atoms := by
          obtain ⟨tss, _, hm3⟩ := getTorsionsM_ok_elim h3
          subst hm3; exact ⟨hats2.1, hats2.2⟩
        split at h
        next e4 h4 =>
          obtain ⟨q, hq, hfq⟩ := mapME_error (getOutofplanesM_error_elim ((Except.error.inj h) ▸ h4))
          rw [hats3.1] at hq hfq
          rw [hats3.2] at hq
          unfold mkOopRec at hfq
          cases hlp : P.oop (typeOf m.atoms q.1) (typeOf m.atoms q.2.1)
              (typeOf m.atoms q.2.2.1) (typeOf m.atoms q.2.2.2) with
          | some vn => rw [hlp] at hfq; cases hfq
          | none =>
            rw [hlp] at hfq
            refine Or.inr (Or.inr (Or.inr ⟨?_,
              (typeOf m.atoms q.1, typeOf m.atoms q.2.1, typeOf m.atoms q.2.2.1,
                typeOf m.atoms q.2.2.2),
              List.mem_map_of_mem _ hq, hlp, ?_⟩))
            · rw [← Except.error.inj hfq]
            · rw [← Except.error.inj hfq]
        next m4 h4 => cases h

/-- A successful topology build implies every enumerated key has a
Parameter Service entry. -/
lemma topology_ok_keys_present {P : Params} {m m' : MolState}
    (hok : get_topology P m = Except.ok m') :
    (∀ k ∈ bondKeys m.atoms m.n_atoms, (P.bond k.1 k.2).isSome = true) ∧
    (∀ k ∈ angleKeys m.atoms m.n_atoms, (P.angle k.1 k.2.1 k.2.2).isSome = true) ∧
    (∀ k ∈ torsionKeys m.atoms m.n_atoms,
      (P.torsion k.1 k.2.1 k.2.2.1 k.2.2.2).isSome = true) ∧
    (∀ k ∈ oopKeys m.atoms m.n_atoms, (P.oop k.1 k.2.1 k.2.2.1 k.2.2.2).isSome = true) := by
  obtain ⟨bs, as_, tss, os, hbs, has, hts, hos, _, _, _, _, _, _, _⟩ :=
    get_topology_ok_elim hok
  refine ⟨?_, ?_, ?_, ?_⟩
  · intro k hk
    obtain ⟨p, hp, hpk⟩ := List.mem_map.mp hk
    obtain ⟨y, _, hfy⟩ := mapME_ok_mem_left hbs p hp
    unfold mkBondRec at hfy
    cases hlp : P.bond (typeOf m.atoms p.1) (typeOf m.atoms p.2) with
    | none => rw [hlp] at hfy; cases hfy
    | some rk => rw [← hpk]; simp [hlp]
  · intro k hk
    obtain ⟨tr, htr, htk⟩ := List.mem_map.mp hk
    obtain ⟨y, _, hfy⟩ := mapME_ok_mem_left has tr htr
    unfold mkAngleRec at hfy
    cases hlp : P.angle (typeOf m.atoms tr.1) (typeOf m.atoms tr.2.1) (typeOf m.atoms tr.2.2) with
    | none => rw [hlp] at hfy; cases hfy
    | some ak => rw [← htk]; simp [hlp]
  · intro k hk
    obtain ⟨q, hq, hqk⟩ := List.mem_map.mp hk
    obtain ⟨y, _, hfy⟩ := mapME_ok_mem_left hts q hq
    unfold mkTorsRecs at hfy
    cases hlp : P.torsion (typeOf m.atoms q.1) (typeOf m.atoms q.2.1)
        (typeOf m.atoms q.2.2.1) (typeOf m.atoms q.2.2.2) with
    | none => rw [hlp] at hfy; cases hfy
    | some terms => rw [← hqk]; simp [hlp]
  · intro k hk
    obtain ⟨q, hq, hqk⟩ := List.mem_map.mp hk
    obtain ⟨y, _, hfy⟩ := mapME_ok_mem_left hos q hq
    unfold mkOopRec at hfy
    cases hlp : P.oop (typeOf m.atoms q.1) (typeOf m.atoms q.2.1)
        (typeOf m.atoms q.2.2.1) (typeOf m.atoms q.2.2.2) with
    | none => rw [hlp] at hfy; cases hfy
    | some vn => rw [← hqk]; simp [hlp]

/-- A successful topology build copies every parameter from the table
entry for the record's own atom types: no default is substituted. -/
lemma topology_ok_records_match {P : Params} {m m' : MolState}
    (hok : get_topology P m = Except.ok m') :
    (∀ b ∈ m'.bonds,
      P.bond (typeOf m'.atoms b.at1) (typeOf m'.atoms b.at2) = some (b.r_eq, b.k_b)) ∧
    (∀ a ∈ m'.angles,
      P.angle (typeOf m'.atoms a.at1) (typeOf m'.atoms a.at2) (typeOf m'.atoms a.at3)
        = some (a.a_eq, a.k_a)) ∧
    (∀ t ∈ m'.torsions, ∃ terms,
      P.torsion (typeOf m'.atoms t.at1) (typeOf m'.atoms t.at2) (typeOf m'.atoms t.at3)
          (typeOf m'.atoms t.at4) = some terms ∧ (t.v_n, t.gam, t.n) ∈ terms) ∧
    (∀ o ∈ m'.outofplanes,
      P.oop (typeOf m'.atoms o.at1) (typeOf m'.atoms o.at2) (typeOf m'.atoms o.at3)
        (typeOf m'.atoms o.at4) = some o.v_n) := by
  obtain ⟨bs, as_, tss, os, hbs, has, hts, hos, hatoms, _, hbonds, hangles, htors, hoops, _⟩ :=
    get_topology_ok_elim hok
  rw [hatoms, hbonds, hangles, htors, hoops]
  refine ⟨?_, ?_, ?_, ?_⟩
  · intro b hb
    obtain ⟨p, hp, hfp⟩ := mapME_ok_mem_right hbs b hb
    unfold mkBondRec at hfp
    cases hlp : P.bond (typeOf m.atoms p.1) (typeOf m.atoms p.2) with
    | none => rw [hlp] at hfp; cases hfp
    | some rk =>
      rw [hlp] at hfp
      rw [← Except.ok.inj hfp]
      exact hlp
  · intro a ha
    obtain ⟨tr, htr, hftr⟩ := mapME_ok_mem_right has a ha
    unfold mkAngleRec at hftr
    cases hlp : P.angle (typeOf m.atoms tr.1) (typeOf m.atoms tr.2.1) (typeOf m.atoms tr.2.2) with
    | none => rw [hlp] at hftr; cases hftr
    | some ak =>
      rw [hlp] at hftr
      rw [← Except.ok.inj hftr]
      exact hlp
  · intro t ht
    obtain ⟨ts, hts', htts⟩ := List.mem_flatten.mp ht
    obtain ⟨q, hq, hfq⟩ := mapME_ok_mem_right hts ts hts'
    unfold mkTorsRecs at hfq
    cases hlp : P.torsion (typeOf m.atoms q.1) (typeOf m.atoms q.2.1)
        (typeOf m.atoms q.2.2.1) (typeOf m.atoms q.2.2.2) with
    | none => rw [hlp] at hfq; cases hfq
    | some terms =>
      rw [hlp] at hfq
      rw [← Except.ok.inj hfq] at htts
      obtain ⟨vg, hvg, hvt⟩ := List.mem_map.mp htts
      rw [← hvt]
      exact ⟨terms, hlp, hvg⟩
  · intro o ho
    obtain ⟨q, hq, hfq⟩ := mapME_ok_mem_right hos o ho
    unfold mkOopRec at hfq
    cases hlp : P.oop (typeOf m.atoms q.1) (typeOf m.atoms q.2.1)
        (typeOf m.atoms q.2.2.1) (typeOf m.atoms q.2.2.2) with
    | none => rw [hlp] at hfq; cases hfq
    | some vn =>
      rw [hlp] at hfq
      rw [← Except.ok.inj hfq]
      exact hlp

/-- C5: A bond, angle, torsion or out-of-plane term whose atom-type
combination has no Parameter Service entry makes topology construction
fail eagerly with a configuration error naming the offending atom
types; and a successful build takes every parameter value from the
table entry for the record's atom types, never a default. -/
theorem missing_param_fatal (P : Params) (m : MolState) :
    (∀ m', get_topology P m = Except.ok m' →
      ((∀ k ∈ bondKeys m.atoms m.n_atoms, (P.bond k.1 k.2).isSome = true) ∧
       (∀ k ∈ angleKeys m.atoms m.n_atoms, (P.angle k.1 k.2.1 k.2.2).isSome = true) ∧
       (∀ k ∈ torsionKeys m.atoms m.n_atoms,
         (P.torsion k.1 k.2.1 k.2.2.1 k.2.2.2).isSome = true) ∧
       (∀ k ∈ oopKeys m.atoms m.n_atoms, (P.oop k.1 k.2.1 k.2.2.1 k.2.2.2).isSome = true)) ∧
      ((∀ b ∈ m'.bonds,
         P.bond (typeOf m'.atoms b.at1) (typeOf m'.atoms b.at2) = some (b.r_eq, b.k_b)) ∧
       (∀ a ∈ m'.angles,
         P.angle (typeOf m'.atoms a.at1) (typeOf m'.atoms a.at2) (typeOf m'.atoms a.at3)
           = some (a.a_eq, a.k_a)) ∧
       (∀ t ∈ m'.torsions, ∃ terms,
         P.torsion (typeOf m'.atoms t.at1) (typeOf m'.atoms t.at2) (typeOf m'.atoms t.at3)
             (typeOf m'.atoms t.at4) = some terms ∧ (t.v_n, t.gam, t.n) ∈ terms) ∧
       (∀ o ∈ m'.outofplanes,
         P.oop (typeOf m'.atoms o.at1) (typeOf m'.atoms o.at2) (typeOf m'.atoms o.at3)
           (typeOf m'.atoms o.at4) = some o.v_n))) ∧
    (((∃ k ∈ bondKeys m.atoms m.n_atoms, P.bond k.1 k.2 = none) ∨
      (∃ k ∈ angleKeys m.atoms m.n_atoms, P.angle k.1 k.2.1 k.2.2 = none) ∨
      (∃ k ∈ torsionKeys m.atoms m.n_atoms, P.torsion k.1 k.2.1 k.2.2.1 k.2.2.2 = none) ∨
      (∃ k ∈ oopKeys m.atoms m.n_atoms, P.oop k.1 k.2.1 k.2.2.1 k.2.2.2 = none)) →
      ∃ e, get_topology P m = Except.error e ∧ offendingKey P m.atoms m.n_atoms e) := by
  constructor
  · intro m' hok
    exact ⟨topology_ok_keys_present hok, topology_ok_records_match hok⟩
  · intro hmiss
    cases hres : get_topology P m with
    | ok m' =>
      exfalso
      obtain ⟨hb, ha, ht, ho⟩ := topology_ok_keys_present hres
      rcases hmiss with ⟨k, hk, hnone⟩ | ⟨k, hk, hnone⟩ | ⟨k, hk, hnone⟩ | ⟨k, hk, hnone⟩
      · have := hb k hk; rw [hnone] at this; simp at this
      · have := ha k hk; rw [hnone] at this; simp at this
      · have := ht k hk; rw [hnone] at this; simp at this
      · have := ho k hk; rw [hnone] at this; simp at this
    | error e => exact ⟨e, rfl, get_topology_error_offending hres⟩

/-- Modelled from the spec: the Geometry Kernel (`geomcalc.py`) and the
per-term analytic-derivative kernels of the Gradient Engine
(`gradient.py`), neither of which is part of the source tree.  Their
operations involve transcendental functions (square roots, inverse
cosines, `atan2`), so they are carried as abstract rational-valued
functions: none of the claims under verification depends on their
numeric values, only on how the pipeline consumes them. -/
structure GeomK where
  dist : Vec3 → Vec3 → ℚ
  angleDeg : Vec3 → Vec3 → Vec3 → ℚ
  dihedDeg : Vec3 → Vec3 → Vec3 → Vec3 → ℚ
  oopDeg : Vec3 → Vec3 → Vec3 → Vec3 → ℚ
  cosd : ℚ → ℚ
  rad : ℚ → ℚ
  gBond : ℚ → ℚ → Vec3 → Vec3 → Vec3 × Vec3
  gAngle : ℚ → ℚ → Vec3 → Vec3 → Vec3 → Vec3 × Vec3 × Vec3
  gTorsion : ℚ → ℚ → ℚ → ℚ → Vec3 → Vec3 → Vec3 → Vec3 → Vec3 × Vec3 × Vec3 × Vec3
  gOop : ℚ → Vec3 → Vec3 → Vec3 → Vec3 → Vec3 × Vec3 × Vec3 × Vec3
  gVdw : Atom → Atom → Vec3 × Vec3
  gElst : ℚ → Atom → Atom → Vec3 × Vec3
  gBound : String → ℚ → ℚ → Vec3 → Vec3 → Vec3

/-- Refresh one bond from the current coordinates: distance and
harmonic energy `k_b * (r_ij - r_eq)^2`. -/
def updBond (G : GeomK) (ats : List Atom) (b : Bond) : Bond :=
  let r := G.dist (coordOf ats b.at1) (coordOf ats b.at2)
  { b with r_ij := r, e := b.k_b * (r - b.r_eq) ^ 2 }

/-- Modelled from the spec: `energy.get_e_bonds` (`energy.py` is not
part of the source tree): refresh every bond and write the subtotal. -/
def get_e_bonds (G : GeomK) (m : MolState) : MolState :=
  let bs := m.bonds.map (updBond G m.atoms)
  { m with bonds := bs, e_bonds := (bs.map Bond.e).sum }

/-- Refresh one angle: current angle and harmonic energy
`k_a * (a_ijk - a_eq)^2` with the degree difference converted to
radians. -/
def updAngle (G : GeomK) (ats : List Atom) (a : Angle) : Angle :=
  let th := G.angleDeg (coordOf ats a.at1) (coordOf ats a.at2) (coordOf ats a.at3)
  { a with a_ijk := th, e := a.k_a * (G.rad (th - a.a_eq)) ^ 2 }

/-- Modelled from the spec: `energy.get_e_angles`. -/
def get_e_angles (G : GeomK) (m : MolState) : MolState :=
  let as_ := m.angles.map (updAngle G m.atoms)
  { m with angles := as_, e_angles := (as_.map Angle.e).sum }

/-- Refresh one torsion: current dihedral and Fourier energy
`(v_n / paths) * (1 + cos(n * t_ijkl - gamma))`. -/
def updTors (G : GeomK) (ats : List Atom) (t : Torsion) : Torsion :=
  let phi := G.dihedDeg (coordOf ats t.at1) (coordOf ats t.at2)
    (coordOf ats t.at3) (coordOf ats t.at4)
  { t with t_ijkl := phi, e := (t.v_n / t.paths) * (1 + G.cosd (t.n * phi - t.gam)) }

/-- Modelled from the spec: `energy.get_e_torsions`. -/
def get_e_torsions (G : GeomK) (m : MolState) : MolState :=
  let ts := m.torsions.map (updTors G m.atoms)
  { m with torsions := ts, e_torsions := (ts.map Torsion.e).sum }

/-- Refresh one out-of-plane term: current improper angle and energy
`v_n * o_ijkl^2` (small-angle improper approximation). -/
def updOop (G : GeomK) (ats : List Atom) (o : Outofplane) : Outofplane :=
  let ps := G.oopDeg (coordOf ats o.at1) (coordOf ats o.at2)
    (coordOf ats o.at3) (coordOf ats o.at4)
  { o with o_ijkl := ps, e := o.v_n * ps ^ 2 }

/-- Modelled from the spec: `energy.get_e_outofplanes`. -/
def get_e_outofplanes (G : GeomK) (m : MolState) : MolState :=
  let os := m.outofplanes.map (updOop G m.atoms)
  { m with outofplanes := os, e_outofplanes := (os.map Outofplane.e).sum }

/-- Lennard-Jones 12-6 pair energy with geometric-mean well depth
(via the stored `sreps` square roots) and arithmetic-mean radius
(the documented combining-rule choice). -/
def e_vdw_pair (G : GeomK) (ats : List Atom) (i j : Nat) : ℚ :=
  let r := G.dist (coordOf ats i) (coordOf ats j)
  let eps_ij := (atomAt ats i).sreps * (atomAt ats j).sreps
  let ro_ij := ((atomAt ats i).ro + (atomAt ats j).ro) / 2
  eps_ij * ((ro_ij / r) ^ 12 - 2 * (ro_ij / r) ^ 6)

/-- Coulomb pair energy with configurable dielectric constant (the
unit-conversion prefactor is absorbed into the charge units; it does
not affect any claim). -/
def e_elst_pair (G : GeomK) (ats : List Atom) (dielectric : ℚ) (i j : Nat) : ℚ :=
  (atomAt ats i).charge * (atomAt ats j).charge /
    (dielectric * G.dist (coordOf ats i) (coordOf ats j))

/-- Modelled from the spec: `energy.get_e_nonbonded`, van der Waals and
electrostatic sums over exactly the non-excluded pairs. -/
def get_e_nonbonded (G : GeomK) (m : MolState) : MolState :=
  let prs := nonbondedPairs m
  { m with
    e_vdw := (prs.map fun p => e_vdw_pair G m.atoms p.1 p.2).sum
    e_elst := (prs.map fun p => e_elst_pair G m.atoms m.dielectric p.1 p.2).sum }

/-- Quadratic-wall restraint energy of one atom: zero inside the
boundary, `k_box`-scaled squared excursion outside (sphere radii and
cube half-widths compared in the squared/absolute encodings). -/
def e_bound_atom (boundtype : String) (k_box bnd : ℚ) (origin c : Vec3) : ℚ :=
  if boundtype = "none" then 0
  else if boundtype = "sphere" then
    let d2 := sqDist c origin
    if bnd ^ 2 < d2 then k_box * (d2 - bnd ^ 2) else 0
  else
    (if bnd < |c.1 - origin.1| then k_box * (|c.1 - origin.1| - bnd) ^ 2 else 0) +
    (if bnd < |c.2.1 - origin.2.1| then k_box * (|c.2.1 - origin.2.1| - bnd) ^ 2 else 0) +
    (if bnd < |c.2.2 - origin.2.2| then k_box * (|c.2.2 - origin.2.2| - bnd) ^ 2 else 0)

/-- Modelled from the spec: `energy.get_e_bound`. -/
def get_e_bound (m : MolState) : MolState :=
  { m with e_bound :=
      (m.atoms.map fun a => e_bound_atom m.boundtype m.k_box m.bound m.origin a.coords).sum }

/-- Modelled from the spec: `energy.get_e_kinetic`,
`sum of 0.5 * m_i * v_i^2`.  The design document leaves the set of
kinetic-energy schemes open, so the selector is carried but every
recognized scheme evaluates the standard full-step estimator. -/
def get_e_kinetic (kintype : String) (m : MolState) : MolState :=
  { m with e_kinetic := (m.atoms.map fun a => (1 / 2 : ℚ) * a.mass * sqNorm a.vels).sum }

/-- Modelled from the spec: `energy.get_e_totals`, simple summation in
the fixed category order. -/
def get_e_totals (m : MolState) : MolState :=
  let eb := m.e_bonds + m.e_angles + m.e_torsions + m.e_outofplanes
  let en := m.e_vdw + m.e_elst
  let ep := eb + en + m.e_bound
  let et := ep + m.e_kinetic
  { m with e_bonded := eb, e_nonbonded := en, e_potential := ep, e_total := et }

/-- `Molecule.get_energy` (molecule.py lines 274-282): the eight energy
stages in source order. -/
def get_energy (G : GeomK) (kintype : String) (m : MolState) : MolState :=
  get_e_totals (get_e_kinetic kintype (get_e_bound (get_e_nonbonded G
    (get_e_outofplanes G (get_e_torsions G (get_e_angles G (get_e_bonds G m)))))))

lemma updBond_updBond (G : GeomK) (ats : List Atom) (b : Bond) :
    updBond G ats (updBond G ats b) = updBond G ats b := rfl

lemma updAngle_updAngle (G : GeomK) (ats : List Atom) (a : Angle) :
    updAngle G ats (updAngle G ats a) = updAngle G ats a := rfl

lemma updTors_updTors (G : GeomK) (ats : List Atom) (t : Torsion) :
    updTors G ats (updTors G ats t) = updTors G ats t := rfl

lemma updOop_updOop (G : GeomK) (ats : List Atom) (o : Outofplane) :
    updOop G ats (updOop G ats o) = updOop G ats o := rfl

/-- C3: After every `get_energy` call, the total potential energy
equals the exact sum of its declared category subtotals:
bonds + angles + torsions + outofplanes + vdw + elst + bound. -/
theorem potential_is_sum_of_subtotals (G : GeomK) (kintype : String) (m : MolState) :
    (get_energy G kintype m).e_potential
      = (get_energy G kintype m).e_bonds + (get_energy G kintype m).e_angles
        + (get_energy G kintype m).e_torsions + (get_energy G kintype m).e_outofplanes
        + (get_energy G kintype m).e_vdw + (get_energy G kintype m).e_elst
        + (get_energy G kintype m).e_bound := by
  simp [get_energy, get_e_totals, get_e_kinetic, get_e_bound, get_e_nonbonded,
    get_e_outofplanes, get_e_torsions, get_e_angles, get_e_bonds]
  ring

/-- C4: With coordinates and velocities unchanged, a second
`get_energy` call with the same kinetic-energy type reproduces the
whole state exactly — in particular every per-term energy and every
aggregate total — because each call overwrites the accumulators from
the coordinates in a fixed deterministic order. -/
theorem get_energy_idempotent (G : GeomK) (kintype : String) (m : MolState) :
    get_energy G kintype (get_energy G kintype m) = get_energy G kintype m := by
  simp [get_energy, get_e_totals, get_e_kinetic, get_e_bound, get_e_nonbonded,
    get_e_outofplanes, get_e_torsions, get_e_angles, get_e_bonds,
    List.map_map, Function.comp_def, updBond_updBond, updAngle_updAngle,
    updTors_updTors, updOop_updOop, nonbondedPairs]

/-- A fresh per-atom gradient array of `n` zero vectors (the rows of a
zeroed `(n, 3)` array). -/
def zerosArr (n : Nat) : List Vec3 := List.replicate n v0

/-- Accumulate a contribution vector into row `i` of a gradient array
(out-of-range rows are never produced by the callers). -/
def addAt (arr : List Vec3) (i : Nat) (v : Vec3) : List Vec3 :=
  arr.set i (vadd (arr.getD i v0) v)

/-- Rowwise sum of two gradient arrays. -/
def arrAdd (a b : List Vec3) : List Vec3 := List.zipWith vadd a b

/-- Modelled from the spec: the bond category gradient, each bond
accumulating its two per-atom derivative vectors into a zeroed
array. -/
def bondGradArr (G : GeomK) (ats : List Atom) (n : Nat) (bonds : List Bond) : List Vec3 :=
  bonds.foldl (fun arr b =>
    let gv := G.gBond b.r_eq b.k_b (coordOf ats b.at1) (coordOf ats b.at2)
    addAt (addAt arr b.at1 gv.1) b.at2 gv.2) (zerosArr n)

/-- Modelled from the spec: the angle category gradient. -/
def angleGradArr (G : GeomK) (ats : List Atom) (n : Nat) (angles : List Angle) : List Vec3 :=
  angles.foldl (fun arr a =>
    let gv := G.gAngle a.a_eq a.k_a (coordOf ats a.at1) (coordOf ats a.at2) (coordOf ats a.at3)
    addAt (addAt (addAt arr a.at1 gv.1) a.at2 gv.2.1) a.at3 gv.2.2) (zerosArr n)

/-- Modelled from the spec: the torsion category gradient. -/
def torsGradArr (G : GeomK) (ats : List Atom) (n : Nat) (torsions : List Torsion) : List Vec3 :=
  torsions.foldl (fun arr t =>
    let gv := G.gTorsion t.v_n t.gam t.n t.paths (coordOf ats t.at1) (coordOf ats t.at2)
      (coordOf ats t.at3) (coordOf ats t.at4)
    addAt (addAt (addAt (addAt arr t.at1 gv.1) t.at2 gv.2.1) t.at3 gv.2.2.1)
      t.at4 gv.2.2.2) (zerosArr n)

/-- Modelled from the spec: the out-of-plane category gradient. -/
def oopGradArr (G : GeomK) (ats : List Atom) (n : Nat) (oops : List Outofplane) : List Vec3 :=
  oops.foldl (fun arr o =>
    let gv := G.gOop o.v_n (coordOf ats o.at1) (coordOf ats o.at2)
      (coordOf ats o.at3) (coordOf ats o.at4)
    addAt (addAt (addAt (addAt arr o.at1 gv.1) o.at2 gv.2.1) o.at3 gv.2.2.1)
      o.at4 gv.2.2.2) (zerosArr n)

/-- Modelled from the spec: a pairwise nonbonded gradient over the
non-excluded pairs, given the pair kernel. -/
def pairGradArr (kern : Atom → Atom → Vec3 × Vec3) (ats : List Atom) (n : Nat)
    (prs : List (Nat × Nat)) : List Vec3 :=
  prs.foldl (fun arr p =>
    let gg := kern (atomAt ats p.1) (atomAt ats p.2)
    addAt (addAt arr p.1 gg.1) p.2 gg.2) (zerosArr n)

/-- Modelled from the spec: the boundary-restraint gradient, one row
per atom. -/
def boundGradArr (G : GeomK) (boundtype : String) (k_box bnd : ℚ) (origin : Vec3)
    (ats : List Atom) (n : Nat) : List Vec3 :=
  (List.range n).map fun i => G.gBound boundtype k_box bnd origin (coordOf ats i)

/-- Modelled from the spec: `gradient.get_g_bonds`. -/
def get_g_bonds (G : GeomK) (m : MolState) : MolState :=
  { m with g_bonds := bondGradArr G m.atoms m.n_atoms m.bonds }

/-- Modelled from the spec: `gradient.get_g_angles`. -/
def get_g_angles (G : GeomK) (m : MolState) : MolState :=
  { m with g_angles := angleGradArr G m.atoms m.n_atoms m.angles }

/-- Modelled from the spec: `gradient.get_g_torsions`. -/
def get_g_torsions (G : GeomK) (m : MolState) : MolState :=
  { m with g_torsions := torsGradArr G m.atoms m.n_atoms m.torsions }

/-- Modelled from the spec: `gradient.get_g_outofplanes`. -/
def get_g_outofplanes (G : GeomK) (m : MolState) : MolState :=
  { m with g_outofplanes := oopGradArr G m.atoms m.n_atoms m.outofplanes }

/-- Modelled from the spec: `gradient.get_g_nonbonded`, van der Waals
and electrostatic gradients over exactly the non-excluded pairs. -/
def get_g_nonbonded (G : GeomK) (m : MolState) : MolState :=
  { m with
    g_vdw := pairGradArr G.gVdw m.atoms m.n_atoms (nonbondedPairs m)
    g_elst := pairGradArr (G.gElst m.dielectric) m.atoms m.n_atoms (nonbondedPairs m) }

/-- Modelled from the spec: `gradient.get_g_bound`.  The Python code
creates the `g_bound` attribute dynamically (it is not initialized by
`Molecule.__init__`), modelled by an `Option` field. -/
def get_g_bound (G : GeomK) (m : MolState) : MolState :=
  { m with g_bound := some (boundGradArr G m.boundtype m.k_box m.bound m.origin
      m.atoms m.n_atoms) }

/-- Modelled from the spec: `gradient.get_g_totals`, rowwise summation
in the fixed category order. -/
def get_g_totals (m : MolState) : MolState :=
  let gb := arrAdd (arrAdd (arrAdd m.g_bonds m.g_angles) m.g_torsions) m.g_outofplanes
  let gn := arrAdd m.g_vdw m.g_elst
  let gt := arrAdd (arrAdd gb gn) (m.g_bound.getD (zerosArr m.n_atoms))
  { m with g_bonded := gb, g_nonbonded := gn, g_total := gt }

/-- `Molecule.get_analytic_gradient` (molecule.py lines 296-303): the
seven gradient stages in source order. -/
def get_analytic_gradient (G : GeomK) (m : MolState) : MolState :=
  get_g_totals (get_g_bound G (get_g_nonbonded G (get_g_outofplanes G
    (get_g_torsions G (get_g_angles G (get_g_bonds G m))))))

/-- The fixed finite-difference step of the numerical gradient. -/
def num_disp : ℚ := 1 / 1000000

/-- Component `k` of a 3-vector. -/
def coordComp (v : Vec3) (k : Nat) : ℚ :=
  match k with
  | 0 => v.1
  | 1 => v.2.1
  | 2 => v.2.2
  | _ => 0

/-- Displace coordinate `k` of one atom by `h`. -/
def perturbAtom (a : Atom) (k : Nat) (h : ℚ) : Atom :=
  { a with coords := vecSet a.coords k (coordComp a.coords k + h) }

/-- Displace coordinate `k` of atom `i` of the molecule by `h`. -/
def perturb (m : MolState) (i k : Nat) (h : ℚ) : MolState :=
  { m with atoms := m.atoms.set i (perturbAtom (atomAt m.atoms i) k h) }

/-- Central finite difference of a scalar state function with respect
to every atomic coordinate. -/
def numDiff (f : MolState → ℚ) (m : MolState) : List Vec3 :=
  (List.range m.n_atoms).map fun i =>
    ((f (perturb m i 0 num_disp) - f (perturb m i 0 (-num_disp))) / (2 * num_disp),
     (f (perturb m i 1 num_disp) - f (perturb m i 1 (-num_disp))) / (2 * num_disp),
     (f (perturb m i 2 num_disp) - f (perturb m i 2 (-num_disp))) / (2 * num_disp))

/-- Modelled from the spec: `gradient.get_g_numerical`, the
finite-difference fallback, one category array per category energy
subtotal. -/
def get_g_numerical (G : GeomK) (m : MolState) : MolState :=
  { m with
    g_bonds := numDiff (fun s => (get_e_bonds G s).e_bonds) m
    g_angles := numDiff (fun s => (get_e_angles G s).e_angles) m
    g_torsions := numDiff (fun s => (get_e_torsions G s).e_torsions) m
    g_outofplanes := numDiff (fun s => (get_e_outofplanes G s).e_outofplanes) m
    g_vdw := numDiff (fun s => (get_e_nonbonded G s).e_vdw) m
    g_elst := numDiff (fun s => (get_e_nonbonded G s).e_elst) m
    g_bound := some (numDiff (fun s => (get_e_bound s).e_bound) m) }

/-- `Molecule.get_numerical_gradient` (molecule.py lines 306-308). -/
def get_numerical_gradient (G : GeomK) (m : MolState) : MolState :=
  get_g_totals (get_g_numerical G m)

/-- Outcome of `Molecule.get_gradient`: either an updated molecule or a
fatal abort (`sys.exit`) carrying the printed message. -/
inductive GradResult where
  | ok (m : MolState)
  | exit (msg : String)

/-- `Molecule.get_gradient` (molecule.py lines 285-293): stores the
selector, dispatches on it, and on an unrecognized value prints the
offending selector and exits without computing any gradient. -/
def get_gradient (G : GeomK) (m : MolState) (grad_type : String) : GradResult :=
  let m1 := { m with grad_type := some grad_type }
  if grad_type = "analytic" then GradResult.ok (get_analytic_gradient G m1)
  else if grad_type = "numerical" then GradResult.ok (get_numerical_gradient G m1)
  else GradResult.exit ("Error: grad type (" ++ grad_type ++ ") not recognized!")

/-- Split a character list at every occurrence of `c`, exactly like
the Python `str.split` with a one-character separator (the empty
string yields `[[]]`, adjacent separators yield empty pieces). -/
def splitOnChar (c : Char) : List Char → List (List Char)
  | [] => [[]]
  | x :: xs =>
    let r := splitOnChar c xs
    if x = c then [] :: r
    else
      match r with
      | [] => [[x]]
      | y :: ys => (x :: y) :: ys

/-- `self.infile.split('.')[-1]` (molecule.py line 201): the text after
the last dot, or the whole name when it has no dot. -/
def pyFiletype (infile : String) : String :=
  String.mk ((splitOnChar '.' infile.data).getLastD [])

/-- `self.infile.split('/')[-1].split('.')[0]` (molecule.py line
202). -/
def pyName (infile : String) : String :=
  String.mk ((splitOnChar '.' ((splitOnChar '/' infile.data).getLastD [])).headD [])

/-- Zero all nine per-atom gradient arrays at the current atom count
(molecule.py lines 246-254). -/
def setGradZeros (m : MolState) : MolState :=
  { m with
    g_bonds := zerosArr m.n_atoms
    g_angles := zerosArr m.n_atoms
    g_torsions := zerosArr m.n_atoms
    g_outofplanes := zerosArr m.n_atoms
    g_bonded := zerosArr m.n_atoms
    g_vdw := zerosArr m.n_atoms
    g_elst := zerosArr m.n_atoms
    g_nonbonded := zerosArr m.n_atoms
    g_total := zerosArr m.n_atoms }

/-- `Molecule.__init__` (molecule.py lines 199-254).  The external file
readers `fileio.get_geom` and `fileio.get_prm` are abstract state
transformers `readGeom`/`readPrm`; an `xyzq` input additionally runs
`get_topology`, whose configuration errors propagate out of the
constructor; any other extension takes neither branch.  The gradient
arrays are zeroed after the branch, at the then-current atom count. -/
def initMolecule (readGeom readPrm : MolState → MolState) (P : Params)
    (infile_name : String) : Except ConfigError MolState :=
  let m0 := { emptyMol with
    infile := infile_name
    filetype := pyFiletype infile_name
    name := pyName infile_name }
  match (if m0.filetype = "xyzq" then get_topology P (readGeom m0)
         else if m0.filetype = "prm" then Except.ok (readPrm m0)
         else Except.ok m0) with
  | Except.error e => Except.error e
  | Except.ok m1 => Except.ok (setGradZeros m1)

lemma initMolecule_ok_elim {rg rp : MolState → MolState} {P : Params}
    {f : String} {m' : MolState} (h : initMolecule rg rp P f = Except.ok m') :
    ∃ m1, m' = setGradZeros m1 := by
  unfold initMolecule at h
  dsimp only at h
  split at h
  · cases h
  next m1 hm1 => exact ⟨m1, (Except.ok.inj h).symm⟩

/-- C6: `get_gradient` with selector `analytic` runs the analytic path,
with `numerical` the finite-difference path, and with any other value
aborts the run, reporting the invalid selector, without computing any
gradient. -/
theorem grad_selector_dispatch (G : GeomK) (m : MolState) :
    get_gradient G m "analytic"
        = GradResult.ok (get_analytic_gradient G { m with grad_type := some "analytic" }) ∧
    get_gradient G m "numerical"
        = GradResult.ok (get_numerical_gradient G { m with grad_type := some "numerical" }) ∧
    ∀ s, s ≠ "analytic" → s ≠ "numerical" →
      get_gradient G m s
        = GradResult.exit ("Error: grad type (" ++ s ++ ") not recognized!") := by
  refine ⟨?_, ?_, ?_⟩
  · simp [get_gradient]
  · simp [get_gradient]
  · intro s h1 h2
    simp [get_gradient, h1, h2]

/-- C10: A Molecule constructed from a file name whose extension is
neither `xyzq` nor `prm` reads no geometry (the result does not depend
on the readers), builds no topology, raises no error, and carries the
default empty state: no atoms, empty term lists, dielectric 1,
boundtype none, infinite volume, and all gradient arrays of shape
`(0, 3)`. -/
theorem unknown_filetype_defaults (rg rp : MolState → MolState) (P : Params)
    (f : String) (h1 : pyFiletype f ≠ "xyzq") (h2 : pyFiletype f ≠ "prm") :
    ∃ m', initMolecule rg rp P f = Except.ok m' ∧
      initMolecule rg rp P f = initMolecule (fun s => s) (fun s => s) P f ∧
      m'.n_atoms = 0 ∧ m'.atoms = [] ∧ m'.bonds = [] ∧ m'.angles = [] ∧
      m'.torsions = [] ∧ m'.outofplanes = [] ∧ m'.nonints = [] ∧
      m'.dielectric = 1 ∧ m'.boundtype = "none" ∧ m'.vol = ⊤ ∧
      m'.g_bonds = zerosArr 0 ∧ m'.g_angles = zerosArr 0 ∧
      m'.g_torsions = zerosArr 0 ∧ m'.g_outofplanes = zerosArr 0 ∧
      m'.g_bonded = zerosArr 0 ∧ m'.g_vdw = zerosArr 0 ∧ m'.g_elst = zerosArr 0 ∧
      m'.g_nonbonded = zerosArr 0 ∧ m'.g_total = zerosArr 0 := by
  refine ⟨setGradZeros { emptyMol with
    infile := f, filetype := pyFiletype f, name := pyName f }, ?_, ?_, ?_⟩
  · simp [initMolecule, h1, h2]
  · simp [initMolecule, h1, h2]
  · simp [setGradZeros, emptyMol, zerosArr]

/-- The nine per-atom gradient arrays of the Molecule, in declaration
order. -/
def gradFields (m : MolState) : List (List Vec3) :=
  [m.g_bonds, m.g_angles, m.g_torsions, m.g_outofplanes, m.g_bonded,
   m.g_vdw, m.g_elst, m.g_nonbonded, m.g_total]

/-- Replace the nine per-atom gradient arrays, leaving every other
field alone. -/
def setGrads (m : MolState) (l1 l2 l3 l4 l5 l6 l7 l8 l9 : List Vec3) : MolState :=
  { m with
    g_bonds := l1
    g_angles := l2
    g_torsions := l3
    g_outofplanes := l4
    g_bonded := l5
    g_vdw := l6
    g_elst := l7
    g_nonbonded := l8
    g_total := l9 }

/-- Every per-atom gradient array has one row per atom: the `(n_atoms,
3)` shape invariant. -/
def gradWF (m : MolState) : Prop := ∀ arr ∈ gradFields m, arr.length = m.n_atoms

lemma addAt_length (arr : List Vec3) (i : Nat) (v : Vec3) :
    (addAt arr i v).length = arr.length := by
  simp [addAt]

lemma foldl_length {α : Type} (step : List Vec3 → α → List Vec3)
    (hstep : ∀ arr x, (step arr x).length = arr.length) :
    ∀ (l : List α) (arr : List Vec3), (l.foldl step arr).length = arr.length := by
  intro l
  induction l with
  | nil => intro arr; rfl
  | cons x xs ih =>
    intro arr
    rw [List.foldl_cons, ih, hstep]

lemma zerosArr_length (n : Nat) : (zerosArr n).length = n := by
  simp [zerosArr]

lemma bondGradArr_length (G : GeomK) (ats : List Atom) (n : Nat) (bonds : List Bond) :
    (bondGradArr G ats n bonds).length = n := by
  unfold bondGradArr
  rw [foldl_length, zerosArr_length]
  intro arr x
  rw [addAt_length, addAt_length]

lemma angleGradArr_length (G : GeomK) (ats : List Atom) (n : Nat) (angles : List Angle) :
    (angleGradArr G ats n angles).length = n := by
  unfold angleGradArr
  rw [foldl_length, zerosArr_length]
  intro arr x
  rw [addAt_length, addAt_length, addAt_length]

lemma torsGradArr_length (G : GeomK) (ats : List Atom) (n : Nat) (torsions : List Torsion) :
    (torsGradArr G ats n torsions).length = n := by
  unfold torsGradArr
  rw [foldl_length, zerosArr_length]
  intro arr x
  rw [addAt_length, addAt_length, addAt_length, addAt_length]

lemma oopGradArr_length (G : GeomK) (ats : List Atom) (n : Nat) (oops : List Outofplane) :
    (oopGradArr G ats n oops).length = n := by
  unfold oopGradArr
  rw [foldl_length, zerosArr_length]
  intro arr x
  rw [addAt_length, addAt_length, addAt_length, addAt_length]

lemma pairGradArr_length (kern : Atom → Atom → Vec3 × Vec3) (ats : List Atom)
    (n : Nat) (prs : List (Nat × Nat)) : (pairGradArr kern ats n prs).length = n := by
  unfold pairGradArr
  rw [foldl_length, zerosArr_length]
  intro arr x
  rw [addAt_length, addAt_length]

lemma boundGradArr_length (G : GeomK) (boundtype : String) (k_box bnd : ℚ)
    (origin : Vec3) (ats : List Atom) (n : Nat) :
    (boundGradArr G boundtype k_box bnd origin ats n).length = n := by
  simp [boundGradArr]

lemma arrAdd_length (a b : List Vec3) : (arrAdd a b).length = min a.length b.length := by
  simp [arrAdd]

lemma numDiff_length (f : MolState → ℚ) (m : MolState) :
    (numDiff f m).length = m.n_atoms := by
  simp [numDiff]

lemma c7_init_zeroed (rg rp : MolState → MolState) (P : Params) (f : String)
    (m' : MolState) (h : initMolecule rg rp P f = Except.ok m') :
    gradFields m' = List.replicate 9 (zerosArr m'.n_atoms) := by
  obtain ⟨m1, hm1⟩ := initMolecule_ok_elim h
  subst hm1
  simp [gradFields, setGradZeros, List.replicate]

set_option maxHeartbeats 1600000 in
lemma c7_analytic_overwrites (G : GeomK) (m : MolState)
    (l1 l2 l3 l4 l5 l6 l7 l8 l9 : List Vec3) :
    gradFields (get_analytic_gradient G (setGrads m l1 l2 l3 l4 l5 l6 l7 l8 l9))
      = gradFields (get_analytic_gradient G m) := by
  simp only [get_analytic_gradient, get_g_totals, get_g_bound, get_g_nonbonded,
    get_g_outofplanes, get_g_torsions, get_g_angles, get_g_bonds, setGrads,
    gradFields, nonbondedPairs]

set_option maxHeartbeats 1600000 in
lemma c7_numerical_overwrites (G : GeomK) (m : MolState)
    (l1 l2 l3 l4 l5 l6 l7 l8 l9 : List Vec3) :
    gradFields (get_numerical_gradient G (setGrads m l1 l2 l3 l4 l5 l6 l7 l8 l9))
      = gradFields (get_numerical_gradient G m) := by
  simp only [get_numerical_gradient, get_g_totals, get_g_numerical, setGrads,
    gradFields, numDiff, perturb, get_e_bonds, get_e_angles, get_e_torsions,
    get_e_outofplanes, get_e_nonbonded, get_e_bound, nonbondedPairs]

set_option maxHeartbeats 1600000 in
lemma gag_fields_eq (G : GeomK) (m : MolState) :
    gradFields (get_analytic_gradient G m) =
      [bondGradArr G m.atoms m.n_atoms m.bonds,
       angleGradArr G m.atoms m.n_atoms m.angles,
       torsGradArr G m.atoms m.n_atoms m.torsions,
       oopGradArr G m.atoms m.n_atoms m.outofplanes,
       arrAdd (arrAdd (arrAdd (bondGradArr G m.atoms m.n_atoms m.bonds)
         (angleGradArr G m.atoms m.n_atoms m.angles))
         (torsGradArr G m.atoms m.n_atoms m.torsions))
         (oopGradArr G m.atoms m.n_atoms m.outofplanes),
       pairGradArr G.gVdw m.atoms m.n_atoms (nonbondedPairs m),
       pairGradArr (G.gElst m.dielectric) m.atoms m.n_atoms (nonbondedPairs m),
       arrAdd (pairGradArr G.gVdw m.atoms m.n_atoms (nonbondedPairs m))
         (pairGradArr (G.gElst m.dielectric) m.atoms m.n_atoms (nonbondedPairs m)),
       arrAdd (arrAdd (arrAdd (arrAdd (arrAdd (bondGradArr G m.atoms m.n_atoms m.bonds)
           (angleGradArr G m.atoms m.n_atoms m.angles))
           (torsGradArr G m.atoms m.n_atoms m.torsions))
           (oopGradArr G m.atoms m.n_atoms m.outofplanes))
         (arrAdd (pairGradArr G.gVdw m.atoms m.n_atoms (nonbondedPairs m))
           (pairGradArr (G.gElst m.dielectric) m.atoms m.n_atoms (nonbondedPairs m))))
         (boundGradArr G m.boundtype m.k_box m.bound m.origin m.atoms m.n_atoms)] := by
  simp only [get_analytic_gradient, get_g_totals, get_g_bound, get_g_nonbonded,
    get_g_outofplanes, get_g_torsions, get_g_angles, get_g_bonds, gradFields,
    nonbondedPairs, Option.getD_some]

set_option maxHeartbeats 1600000 in
lemma gag_n_atoms (G : GeomK) (m : MolState) :
    (get_analytic_gradient G m).n_atoms = m.n_atoms := by
  simp only [get_analytic_gradient, get_g_totals, get_g_bound, get_g_nonbonded,
    get_g_outofplanes, get_g_torsions, get_g_angles, get_g_bonds]

lemma c7_analytic_shape (G : GeomK) (m : MolState) :
    gradWF (get_analytic_gradient G m) := by
  intro arr harr
  rw [gag_fields_eq] at harr
  rw [gag_n_atoms]
  simp only [List.mem_cons, List.not_mem_nil, or_false] at harr
  rcases harr with h | h | h | h | h | h | h | h | h <;> subst h <;>
    simp [bondGradArr_length, angleGradArr_length, torsGradArr_length,
      oopGradArr_length, pairGradArr_length, boundGradArr_length,
      arrAdd_length, zerosArr_length]

set_option maxHeartbeats 1600000 in
lemma c7_numerical_shape (G : GeomK) (m : MolState) :
    gradWF (get_numerical_gradient G m) := by
  intro arr harr
  simp only [get_numerical_gradient, get_g_totals, get_g_numerical,
    gradFields, List.mem_cons, List.not_mem_nil, or_false] at harr ⊢
  rcases harr with h | h | h | h | h | h | h | h | h <;> subst h <;>
    simp [numDiff_length, arrAdd_length, zerosArr_length]

set_option maxHeartbeats 1600000 in
lemma c7_energy_preserves (G : GeomK) (kintype : String) (m : MolState) :
    gradFields (get_energy G kintype m) = gradFields m ∧
      (get_energy G kintype m).n_atoms = m.n_atoms := by
  constructor
  · simp only [get_energy, get_e_totals, get_e_kinetic, get_e_bound, get_e_nonbonded,
      get_e_outofplanes, get_e_torsions, get_e_angles, get_e_bonds, gradFields]
  · simp only [get_energy, get_e_totals, get_e_kinetic, get_e_bound, get_e_nonbonded,
      get_e_outofplanes, get_e_torsions, get_e_angles, get_e_bonds]

/-- C7: Every per-atom gradient array of a constructed Molecule has
shape `(n_atoms, 3)` and is initialized to all zeros; both gradient
evaluations rebuild the arrays from zeros, independent of their prior
contents, and re-establish the shape invariant; and energy evaluation
preserves the arrays and the atom count, so the invariant survives
every energy/gradient evaluation. -/
theorem gradient_arrays_invariant (G : GeomK) :
    (∀ (rg rp : MolState → MolState) (P : Params) (f : String) (m' : MolState),
        initMolecule rg rp P f = Except.ok m' →
        gradFields m' = List.replicate 9 (zerosArr m'.n_atoms)) ∧
    (∀ m l1 l2 l3 l4 l5 l6 l7 l8 l9,
        gradFields (get_analytic_gradient G (setGrads m l1 l2 l3 l4 l5 l6 l7 l8 l9))
            = gradFields (get_analytic_gradient G m) ∧
        gradFields (get_numerical_gradient G (setGrads m l1 l2 l3 l4 l5 l6 l7 l8 l9))
            = gradFields (get_numerical_gradient G m)) ∧
    (∀ m, gradWF (get_analytic_gradient G m) ∧ gradWF (get_numerical_gradient G m)) ∧
    (∀ kintype m, gradFields (get_energy G kintype m) = gradFields m ∧
        (get_energy G kintype m).n_atoms = m.n_atoms) := by
  refine ⟨?_, ?_, ?_, ?_⟩
  · intro rg rp P f m' h
    exact c7_init_zeroed rg rp P f m' h
  · intro m l1 l2 l3 l4 l5 l6 l7 l8 l9
    exact ⟨c7_analytic_overwrites G m l1 l2 l3 l4 l5 l6 l7 l8 l9,
      c7_numerical_overwrites G m l1 l2 l3 l4 l5 l6 l7 l8 l9⟩
  · intro m
    exact ⟨c7_analytic_shape G m, c7_numerical_shape G m⟩
  · intro kintype m
    exact c7_energy_preserves G kintype m

/-- Any number of `set_nfold` calls only ever rewrite the dynamic
`nfold` attribute; every field set by the constructor is untouched. -/
lemma foldl_set_nfold (vs : List ℚ) (t : Torsion) :
    vs.foldl Torsion.set_nfold t
      = { t with nfold := vs.foldl (fun _ v => some v) t.nfold } := by
  induction vs generalizing t with
  | nil => rfl
  | cons v vs ih => simp [List.foldl_cons, Torsion.set_nfold, ih]

/-- C8: For every Atom and every argument pair (index, coord),
`Atom.set_coord` raises a NameError and leaves the atom's coordinate
array unchanged: its body assigns `self.coords[index] = coords`, but no
name `coords` is bound in scope (the parameter is named `coord`), so
the setter can never succeed. -/
theorem set_coord_always_name_error (a : Atom) (index : Nat) (coord : ℚ) :
    a.set_coord index coord = Except.error ("NameError: name coords is not defined") := by
  rfl

/-- C9: For every Torsion constructed with periodicity `nfold0`, any
sequence of `set_nfold` calls leaves the periodicity field `n` (set by
the constructor) unchanged at `nfold0`, and also leaves `at1..at4`,
`t_ijkl`, `v_n`, `gam`, `paths`, `e` and `g` unchanged: the setter
writes only the distinct attribute named `nfold`. -/
theorem set_nfold_leaves_n_unchanged (at1 at2 at3 at4 : Nat)
    (t_ijkl v_n gamma nfold0 paths : ℚ) (vs : List ℚ) :
    vs.foldl Torsion.set_nfold (Torsion.init at1 at2 at3 at4 t_ijkl v_n gamma nfold0 paths)
      = { Torsion.init at1 at2 at3 at4 t_ijkl v_n gamma nfold0 paths with
          nfold := vs.foldl (fun _ v => some v) none } ∧
    (vs.foldl Torsion.set_nfold (Torsion.init at1 at2 at3 at4 t_ijkl v_n gamma nfold0 paths)).n
      = nfold0 ∧
    (vs.foldl Torsion.set_nfold (Torsion.init at1 at2 at3 at4 t_ijkl v_n gamma nfold0 paths)).at1
      = at1 ∧
    (vs.foldl Torsion.set_nfold (Torsion.init at1 at2 at3 at4 t_ijkl v_n gamma nfold0 paths)).at2
      = at2 ∧
    (vs.foldl Torsion.set_nfold (Torsion.init at1 at2 at3 at4 t_ijkl v_n gamma nfold0 paths)).at3
      = at3 ∧
    (vs.foldl Torsion.set_nfold (Torsion.init at1 at2 at3 at4 t_ijkl v_n gamma nfold0 paths)).at4
      = at4 ∧
    (vs.foldl Torsion.set_nfold (Torsion.init at1 at2 at3 at4 t_ijkl v_n gamma nfold0 paths)).t_ijkl
      = t_ijkl ∧
    (vs.foldl Torsion.set_nfold (Torsion.init at1 at2 at3 at4 t_ijkl v_n gamma nfold0 paths)).v_n
      = v_n ∧
    (vs.foldl Torsion.set_nfold (Torsion.init at1 at2 at3 at4 t_ijkl v_n gamma nfold0 paths)).gam
      = gamma ∧
    (vs.foldl Torsion.set_nfold (Torsion.init at1 at2 at3 at4 t_ijkl v_n gamma nfold0 paths)).paths
      = paths ∧
    (vs.foldl Torsion.set_nfold (Torsion.init at1 at2 at3 at4 t_ijkl v_n gamma nfold0 paths)).e
      = 0 ∧
    (vs.foldl Torsion.set_nfold (Torsion.init at1 at2 at3 at4 t_ijkl v_n gamma nfold0 paths)).g
      = 0 := by
  simp [foldl_set_nfold, Torsion.init]


/-! Concrete instances used by the witness theorems below. -/

/-- A trivial stand-in for `math.sqrt` (its value is irrelevant to the
claims). -/
def sqrtId (q : ℚ) : ℚ := q

/-- A covalent-radius table assigning radius 1 to every element. -/
def covTable (e : String) : ℚ := 1

/-- A carbon-like atom at the origin. -/
def a0 : Atom := Atom.init sqrtId covTable ("C") (0, 0, 0) 0 1 1 12

/-- A carbon-like atom one Angstrom away along z. -/
def a1 : Atom := Atom.init sqrtId covTable ("C") (0, 0, 1) 0 1 1 12

/-- A two-atom molecule whose single pair passes the proximity test. -/
def mol2 : MolState := { emptyMol with atoms := [a0, a1], n_atoms := 2 }

/-- A total parameter table. -/
def P_ok : Params :=
  ⟨fun _ _ => some (1, 1), fun _ _ _ => some (1, 1),
   fun _ _ _ _ => some [(1, 1, 1)], fun _ _ _ _ => some 1⟩

/-- A parameter table with no bond entries at all. -/
def P_nobond : Params := { P_ok with bond := fun _ _ => none }

/-- The topology of the two-atom molecule. -/
def topo2 : MolState :=
  match get_topology P_ok mol2 with
  | Except.ok m => m
  | Except.error _ => emptyMol

/-- A trivial concrete geometry/derivative kernel. -/
def G0 : GeomK :=
  ⟨fun _ _ => 0, fun _ _ _ => 0, fun _ _ _ _ => 0, fun _ _ _ _ => 0,
   fun _ => 0, fun _ => 0,
   fun _ _ _ _ => (v0, v0), fun _ _ _ _ _ => (v0, v0, v0),
   fun _ _ _ _ _ _ _ _ => (v0, v0, v0, v0), fun _ _ _ _ _ => (v0, v0, v0, v0),
   fun _ _ => (v0, v0), fun _ _ _ => (v0, v0), fun _ _ _ _ _ => v0⟩

/-- The molecule built from an input file with an unrecognized
extension. -/
def init_txt : MolState :=
  match initMolecule (fun s => s) (fun s => s) P_ok ("molecule.txt") with
  | Except.ok m => m
  | Except.error _ => emptyMol

theorem bond_iff_within_covrad_threshold_witness :
    (∃ b ∈ topo2.bonds, b.at1 = 0 ∧ b.at2 = 1) ↔
      Real.sqrt ((sqDist (coordOf topo2.atoms 0) (coordOf topo2.atoms 1) : ℚ) : ℝ)
        ≤ ((bond_thresh * (covradOf topo2.atoms 0 + covradOf topo2.atoms 1) : ℚ) : ℝ) :=
  bond_iff_within_covrad_threshold P_ok mol2 topo2 (by with_unfolding_all rfl) 0 1
    (by decide) (by with_unfolding_all decide)

theorem nonints_exactly_covered_witness :
    ((0, 1) ∈ topo2.nonints ↔
      ((0, 1) ∈ pairsUpTo topo2.n_atoms ∧ coveredPair topo2 0 1)) ∧
    ((0, 1) ∈ nonbondedPairs topo2 ↔
      ((0, 1) ∈ pairsUpTo topo2.n_atoms ∧ ¬ coveredPair topo2 0 1)) :=
  nonints_exactly_covered P_ok mol2 topo2 (by with_unfolding_all rfl) 0 1

theorem missing_param_fatal_witness :
    ∃ e, get_topology P_nobond mol2 = Except.error e ∧
      offendingKey P_nobond mol2.atoms mol2.n_atoms e :=
  (missing_param_fatal P_nobond mol2).2
    (Or.inl ⟨(typeOf mol2.atoms 0, typeOf mol2.atoms 1),
      by with_unfolding_all decide, rfl⟩)

theorem grad_selector_dispatch_witness :
    get_gradient G0 emptyMol ("analytic")
        = GradResult.ok (get_analytic_gradient G0
            { emptyMol with grad_type := some ("analytic") }) ∧
    get_gradient G0 emptyMol ("foo")
        = GradResult.exit ("Error: grad type (foo) not recognized!") := by
  obtain ⟨h1, h2, h3⟩ := grad_selector_dispatch G0 emptyMol
  exact ⟨h1, (h3 ("foo") (by decide) (by decide)).trans (by with_unfolding_all rfl)⟩

theorem gradient_arrays_invariant_witness :
    gradFields init_txt = List.replicate 9 (zerosArr init_txt.n_atoms) :=
  (gradient_arrays_invariant G0).1 (fun s => s) (fun s => s) P_ok ("molecule.txt")
    init_txt (by with_unfolding_all rfl)

theorem unknown_filetype_defaults_witness :
    ∃ m', initMolecule (fun s => s) (fun s => s) P_ok ("molecule.txt") = Except.ok m' ∧
      initMolecule (fun s => s) (fun s => s) P_ok ("molecule.txt")
        = initMolecule (fun s => s) (fun s => s) P_ok ("molecule.txt") ∧
      m'.n_atoms = 0 ∧ m'.atoms = [] ∧ m'.bonds = [] ∧ m'.angles = [] ∧
      m'.torsions = [] ∧ m'.outofplanes = [] ∧ m'.nonints = [] ∧
      m'.dielectric = 1 ∧ m'.boundtype = "none" ∧ m'.vol = ⊤ ∧
      m'.g_bonds = zerosArr 0 ∧ m'.g_angles = zerosArr 0 ∧
      m'.g_torsions = zerosArr 0 ∧ m'.g_outofplanes = zerosArr 0 ∧
      m'.g_bonded = zerosArr 0 ∧ m'.g_vdw = zerosArr 0 ∧ m'.g_elst = zerosArr 0 ∧
      m'.g_nonbonded = zerosArr 0 ∧ m'.g_total = zerosArr 0 :=
  unknown_filetype_defaults (fun s => s) (fun s => s) P_ok ("molecule.txt")
    (by with_unfolding_all decide) (by with_unfolding_all decide)

end MM
